import Mathlib

/-!
Verification of the rusty-java class-file interpreter.

This file shallowly embeds the parts of the interpreter that the verified
properties talk about:

* the normalised instruction set and its smart constructors
  (src/instructions.rs),
* the per-method instruction decoder with its branch-target rewriting
  (decode_instructions in src/class.rs),
* the value model and the pure per-instruction step semantics of the frame
  interpreter, plus the method-invocation path up to construction of the
  callee frame (src/call_frame.rs),
* instance-field linking of a class (Class::new in src/class.rs) and the
  field-descriptor parser (src/descriptor.rs),
* the class-registry behaviour of the VM (spec section 4.5; the vm.rs file
  shipped in the snapshot is a stale revision, see the comment at VmState).

Machine integers are modelled as unbounded Int together with explicit
two's-complement wrapping where the source performs fixed-width arithmetic
or casts.  Rust panics (unwrap, todo, index out of bounds, overflow checks
that exist in every profile such as division by zero) are modelled by the
distinguished result Err.rsPanic, which is different from the eyre error
channel Err.error produced by bail and wrap_err.
-/

set_option autoImplicit false
set_option maxHeartbeats 2000000

namespace RustyJava

/-- Two's-complement wrap of an unbounded integer to a signed `w`-bit value,
modelling Rust `as iN` casts and wrapping arithmetic. -/
def wrapSigned (w : Nat) (x : Int) : Int :=
  (x + 2 ^ (w - 1)) % 2 ^ w - 2 ^ (w - 1)

/-- Rust `as i16`. -/
def wrapI16 (x : Int) : Int := wrapSigned 16 x

/-- Rust `as i32`. -/
def wrapI32 (x : Int) : Int := wrapSigned 32 x

/-- Errors and aborts of the interpreter.  `error` models the eyre
result channel (bail, wrap_err); `rsPanic` models a Rust panic
(todo, unwrap, unreachable, out-of-bounds indexing). -/
inductive Err where
  | error (msg : String)
  | rsPanic (msg : String)
deriving DecidableEq

/-- Fail on the eyre result channel (bail / wrap_err / io error through ?). -/
def bailE {α : Type} (msg : String) : Except Err α := .error (.error msg)

/-- Abort with a Rust panic (todo, unwrap, unreachable, indexing). -/
def panicE {α : Type} (msg : String) : Except Err α := .error (.rsPanic msg)

/-- Is this outcome a failure on the eyre result channel (as opposed to a
success or a Rust panic)? -/
def isEyreError {α : Type} : Except Err α → Bool
  | .error (.error _) => true
  | _ => false

/-! ## Instruction set (src/instructions.rs)

Constructor names follow the Rust enum; Rust keywords that clash with Lean
syntax are renamed: `const` becomes `constOp`, `if` becomes `ifCond`,
`return` becomes `retOp`, `new` becomes `newObj`, `instanceof` becomes
`instanceOf`.  Branch operands are the stored i16/i32 values, represented
as `Int`; indices (u8/u16) are represented as `Nat`. -/

inductive NumberType where
  | int | long | float | double
deriving DecidableEq

inductive IntegerType where
  | int | long
deriving DecidableEq

inductive LoadStoreType where
  | int | long | float | double | reference
deriving DecidableEq

inductive ArrayLoadStoreType where
  | int | long | float | double | reference | byte | char | short
deriving DecidableEq

inductive Condition where
  | eq | ne | lt | le | gt | ge
deriving DecidableEq

inductive EqCondition where
  | eq | ne
deriving DecidableEq

inductive OrdCondition where
  | lt | gt
deriving DecidableEq

/-- InvokeKind; the `interface` variant carries the NonZeroU8 count. -/
inductive InvokeKind where
  | virtual | special | static
  | interface (count : Nat)
  | dynamic
deriving DecidableEq

inductive ReturnType where
  | void | int | long | float | double | reference
deriving DecidableEq

/-- ArrayType with its `repr(u8)` discriminants (see `ArrayType.fromRepr`). -/
inductive ArrayType where
  | boolean | char | float | double | byte | short | int | long
deriving DecidableEq

/-- strum `FromRepr` for ArrayType. -/
def ArrayType.fromRepr (b : Nat) : Option ArrayType :=
  match b with
  | 4 => some .boolean
  | 5 => some .char
  | 6 => some .float
  | 7 => some .double
  | 8 => some .byte
  | 9 => some .short
  | 10 => some .int
  | 11 => some .long
  | _ => none

inductive Instruction where
  -- Constants
  | nop
  | aconstNull
  | constOp (dataType : NumberType) (value : Int)
  | bipush (value : Int)
  | sipush (value : Int)
  | ldc (index : Nat)
  | ldc2 (index : Nat)
  -- Loads
  | load (dataType : LoadStoreType) (index : Nat)
  | arrayload (dataType : ArrayLoadStoreType)
  -- Stores
  | store (dataType : LoadStoreType) (index : Nat)
  | arraystore (dataType : ArrayLoadStoreType)
  -- Stack
  | pop
  | pop2
  | dup
  | dupX1
  | dupX2
  | dup2
  | dup2X1
  | dup2X2
  | swap
  -- Math
  | add (dataType : NumberType)
  | sub (dataType : NumberType)
  | mul (dataType : NumberType)
  | div (dataType : NumberType)
  | rem (dataType : NumberType)
  | neg (dataType : NumberType)
  | shl (dataType : IntegerType)
  | shr (dataType : IntegerType)
  | ushr (dataType : IntegerType)
  | and (dataType : IntegerType)
  | or (dataType : IntegerType)
  | xor (dataType : IntegerType)
  | inc (index : Nat) (value : Int)
  -- Conversions
  | i2l | i2f | i2d | l2i | l2f | l2d | f2i | f2l | f2d | d2i | d2l | d2f
  | i2b | i2c | i2s
  -- Comparisons
  | lcmp
  | fcmp (condition : OrdCondition)
  | dcmp (condition : OrdCondition)
  | ifCond (condition : Condition) (branch : Int)
  | ifIcmp (condition : Condition) (branch : Int)
  | ifAcmp (condition : EqCondition) (branch : Int)
  -- References
  | getstatic (index : Nat)
  | putstatic (index : Nat)
  | getfield (index : Nat)
  | putfield (index : Nat)
  | invoke (kind : InvokeKind) (index : Nat)
  | newObj (index : Nat)
  | newarray (atype : ArrayType)
  | anewarray (index : Nat)
  | arraylength
  | athrow
  | checkcast (index : Nat)
  | instanceOf (index : Nat)
  | monitorenter
  | monitorexit
  -- Control
  | goto (branch : Int)
  | jsr (branch : Int)
  | ret (index : Nat)
  | tableswitch
  | lookupswitch
  | retOp (dataType : ReturnType)
  -- Extended
  | multianewarray (index : Nat) (dimensions : Nat)
  | ifnull (branch : Int)
  | ifnonnull (branch : Int)
  -- Reserved
  | breakpoint
  | impdep1
  | impdep2

namespace Instruction

/-! Smart constructors from the `impl Instruction` block of
src/instructions.rs (prefixed `mk` to keep them apart from the enum
variants, which share names in Rust). -/

def mkIconst (value : Int) : Instruction := .constOp .int value
def mkLconst (value : Int) : Instruction := .constOp .long value
def mkFconst (value : Int) : Instruction := .constOp .float value
def mkDconst (value : Int) : Instruction := .constOp .double value
def mkBipush (value : Int) : Instruction := .bipush value
def mkSipush (value : Int) : Instruction := .sipush value
def mkLdc (index : Nat) : Instruction := .ldc index
def mkLdc2 (index : Nat) : Instruction := .ldc2 index
def mkIload (index : Nat) : Instruction := .load .int index
def mkLload (index : Nat) : Instruction := .load .long index
def mkFload (index : Nat) : Instruction := .load .float index
def mkDload (index : Nat) : Instruction := .load .double index
def mkAload (index : Nat) : Instruction := .load .reference index
def mkArrayload (dataType : ArrayLoadStoreType) : Instruction := .arrayload dataType
def mkIstore (index : Nat) : Instruction := .store .int index
def mkLstore (index : Nat) : Instruction := .store .long index
def mkFstore (index : Nat) : Instruction := .store .float index
def mkDstore (index : Nat) : Instruction := .store .double index
def mkAstore (index : Nat) : Instruction := .store .reference index
def mkArraystore (dataType : ArrayLoadStoreType) : Instruction := .arraystore dataType
def mkAdd (dataType : NumberType) : Instruction := .add dataType
def mkSub (dataType : NumberType) : Instruction := .sub dataType
def mkMul (dataType : NumberType) : Instruction := .mul dataType
def mkDiv (dataType : NumberType) : Instruction := .div dataType
def mkRem (dataType : NumberType) : Instruction := .rem dataType
def mkNeg (dataType : NumberType) : Instruction := .neg dataType
def mkShl (dataType : IntegerType) : Instruction := .shl dataType
def mkShr (dataType : IntegerType) : Instruction := .shr dataType
def mkUshr (dataType : IntegerType) : Instruction := .ushr dataType
def mkAnd (dataType : IntegerType) : Instruction := .and dataType
def mkOr (dataType : IntegerType) : Instruction := .or dataType
def mkXor (dataType : IntegerType) : Instruction := .xor dataType
def mkInc (index : Nat) (value : Int) : Instruction := .inc index value
def mkFcmp (condition : OrdCondition) : Instruction := .fcmp condition
def mkDcmp (condition : OrdCondition) : Instruction := .dcmp condition
def mkIf (condition : Condition) (branch : Int) : Instruction := .ifCond condition branch
def mkIfIcmp (condition : Condition) (branch : Int) : Instruction := .ifIcmp condition branch
def mkIfAcmp (condition : EqCondition) (branch : Int) : Instruction := .ifAcmp condition branch
def mkGoto (branch : Int) : Instruction := .goto branch
def mkJsr (branch : Int) : Instruction := .jsr branch
def mkRet (index : Nat) : Instruction := .ret index
def mkReturn (dataType : ReturnType) : Instruction := .retOp dataType
def mkMultianewarray (index : Nat) (dimensions : Nat) : Instruction :=
  .multianewarray index dimensions
def mkGetfield (index : Nat) : Instruction := .getfield index
def mkPutfield (index : Nat) : Instruction := .putfield index
def mkGetstatic (index : Nat) : Instruction := .getstatic index
def mkPutstatic (index : Nat) : Instruction := .putstatic index
def mkInvoke (kind : InvokeKind) (index : Nat) : Instruction := .invoke kind index
def mkNew (index : Nat) : Instruction := .newObj index
def mkNewarray (atype : ArrayType) : Instruction := .newarray atype
def mkAnewarray (index : Nat) : Instruction := .anewarray index
def mkCheckcast (index : Nat) : Instruction := .checkcast index
def mkInstanceof (index : Nat) : Instruction := .instanceOf index
def mkIfnull (branch : Int) : Instruction := .ifnull branch

/-- The `ifnonnull` constructor of src/instructions.rs, which (as written in
the source, lines 456-458) builds an `ifnull` variant. -/
def mkIfnonnull (branch : Int) : Instruction := .ifnull branch

/-- Does this instruction carry the `ifnonnull` variant? -/
def isIfnonnull : Instruction → Bool
  | .ifnonnull _ => true
  | _ => false

/-- The stored branch operand of a decoded branch instruction, if any.
These are exactly the variants rewritten by the second pass of
decode_instructions. -/
def branchOffset : Instruction → Option Int
  | .ifCond _ b => some b
  | .ifIcmp _ b => some b
  | .ifAcmp _ b => some b
  | .goto b => some b
  | .jsr b => some b
  | .ifnull b => some b
  | .ifnonnull b => some b
  | _ => none

end Instruction

/-! ## Byte cursor (std::io::Cursor as used by decode_instructions)

The cursor keeps the full byte list, the current position, and the cached
suffix of bytes starting at the position (so that sequential reads are
constant-time; the suffix is always `bytes.drop pos`). -/

structure Cursor where
  bytes : List Nat
  pos : Nat
  rest : List Nat

namespace Cursor

def new (bytes : List Nat) : Cursor := ⟨bytes, 0, bytes⟩

/-- `read_u8`; `none` models the Err that terminates the decode loop. -/
def readU8 (c : Cursor) : Option (Nat × Cursor) :=
  match c.rest with
  | [] => none
  | b :: tl => some (b, ⟨c.bytes, c.pos + 1, tl⟩)

/-- `set_position` (the cached suffix is recomputed). -/
def setPosition (c : Cursor) (p : Nat) : Cursor :=
  ⟨c.bytes, p, c.bytes.drop p⟩

/-- The `align_to` helper of src/class.rs. -/
def alignTo (c : Cursor) (a : Nat) : Cursor :=
  let offset := c.pos % a
  if offset = 0 then c else c.setPosition (c.pos + a - offset)

/-- Operand read through `?`: an EOF here is an io error propagated on the
eyre channel. -/
def readU8E (c : Cursor) : Except Err (Nat × Cursor) :=
  match c.readU8 with
  | none => bailE "failed to fill whole buffer"
  | some r => .ok r

/-- `read_i8`: one byte, interpreted as a signed 8-bit value. -/
def readI8 (c : Cursor) : Except Err (Int × Cursor) :=
  (c.readU8E).map fun (b, c') => (if b < 128 then (b : Int) else (b : Int) - 256, c')

/-- `read_u16::<BigEndian>`. -/
def readU16 (c : Cursor) : Except Err (Nat × Cursor) := do
  let (b1, c) ← c.readU8E
  let (b2, c) ← c.readU8E
  .ok (b1 * 256 + b2, c)

/-- `read_i16::<BigEndian>`. -/
def readI16 (c : Cursor) : Except Err (Int × Cursor) :=
  (c.readU16).map fun (v, c') => (if v < 32768 then (v : Int) else (v : Int) - 65536, c')

/-- `read_i32::<BigEndian>`. -/
def readI32 (c : Cursor) : Except Err (Int × Cursor) := do
  let (b1, c) ← c.readU8E
  let (b2, c) ← c.readU8E
  let (b3, c) ← c.readU8E
  let (b4, c) ← c.readU8E
  let v := ((b1 * 256 + b2) * 256 + b3) * 256 + b4
  .ok (if v < 2 ^ 31 then (v : Int) else (v : Int) - 2 ^ 32, c)

end Cursor

/-! ## Instruction decoder (decode_instructions in src/class.rs)

The opcode numbering is that of OpCode in src/opcodes.rs.  That file is not
part of the snapshot (lib.rs declares the module but the file is absent), so
the numbering is taken from the published bytecode specification, which the
enum mirrors name-for-name (spec section 6 requires bit-exact compatibility
with it). -/

/-- The OpCode enum of src/opcodes.rs.  The file is declared by lib.rs but
absent from the snapshot; the constructor names are those appearing in the
match of decode_instructions, and the `repr(u8)` discriminants (see
`OpCode.fromRepr`) are the published bytecode numbering, with which spec
section 6 requires bit-exact compatibility.  `return_` is Rust's
`OpCode::r#return`. -/
inductive OpCode where
  | nop | aconst_null | iconst_m1 | iconst_0 | iconst_1 | iconst_2
  | iconst_3 | iconst_4 | iconst_5 | lconst_0 | lconst_1 | fconst_0
  | fconst_1 | fconst_2 | dconst_0 | dconst_1 | bipush | sipush
  | ldc | ldc_w | ldc2_w | iload | lload | fload
  | dload | aload | iload_0 | iload_1 | iload_2 | iload_3
  | lload_0 | lload_1 | lload_2 | lload_3 | fload_0 | fload_1
  | fload_2 | fload_3 | dload_0 | dload_1 | dload_2 | dload_3
  | aload_0 | aload_1 | aload_2 | aload_3 | iaload | laload
  | faload | daload | aaload | baload | caload | saload
  | istore | lstore | fstore | dstore | astore | istore_0
  | istore_1 | istore_2 | istore_3 | lstore_0 | lstore_1 | lstore_2
  | lstore_3 | fstore_0 | fstore_1 | fstore_2 | fstore_3 | dstore_0
  | dstore_1 | dstore_2 | dstore_3 | astore_0 | astore_1 | astore_2
  | astore_3 | iastore | lastore | fastore | dastore | aastore
  | bastore | castore | sastore | pop | pop2 | dup
  | dup_x1 | dup_x2 | dup2 | dup2_x1 | dup2_x2 | swap
  | iadd | ladd | fadd | dadd | isub | lsub
  | fsub | dsub | imul | lmul | fmul | dmul
  | idiv | ldiv | fdiv | ddiv | irem | lrem
  | frem | drem | ineg | lneg | fneg | dneg
  | ishl | lshl | ishr | lshr | iushr | lushr
  | iand | land | ior | lor | ixor | lxor
  | iinc | i2l | i2f | i2d | l2i | l2f
  | l2d | f2i | f2l | f2d | d2i | d2l
  | d2f | i2b | i2c | i2s | lcmp | fcmpl
  | fcmpg | dcmpl | dcmpg | ifeq | ifne | iflt
  | ifge | ifgt | ifle | if_icmpeq | if_icmpne | if_icmplt
  | if_icmpge | if_icmpgt | if_icmple | if_acmpeq | if_acmpne | goto
  | jsr | ret | tableswitch | lookupswitch | ireturn | lreturn
  | freturn | dreturn | areturn | return_ | getstatic | putstatic
  | getfield | putfield | invokevirtual | invokespecial | invokestatic | invokeinterface
  | invokedynamic | new | newarray | anewarray | arraylength | athrow
  | checkcast | instanceof | monitorenter | monitorexit | wide | multianewarray
  | ifnull | ifnonnull | goto_w | jsr_w | breakpoint | impdep1
  | impdep2

/-- strum FromRepr for OpCode. -/
def OpCode.fromRepr (b : Nat) : Option OpCode :=
  match b with
  | 0x0 => some .nop
  | 0x1 => some .aconst_null
  | 0x2 => some .iconst_m1
  | 0x3 => some .iconst_0
  | 0x4 => some .iconst_1
  | 0x5 => some .iconst_2
  | 0x6 => some .iconst_3
  | 0x7 => some .iconst_4
  | 0x8 => some .iconst_5
  | 0x9 => some .lconst_0
  | 0xa => some .lconst_1
  | 0xb => some .fconst_0
  | 0xc => some .fconst_1
  | 0xd => some .fconst_2
  | 0xe => some .dconst_0
  | 0xf => some .dconst_1
  | 0x10 => some .bipush
  | 0x11 => some .sipush
  | 0x12 => some .ldc
  | 0x13 => some .ldc_w
  | 0x14 => some .ldc2_w
  | 0x15 => some .iload
  | 0x16 => some .lload
  | 0x17 => some .fload
  | 0x18 => some .dload
  | 0x19 => some .aload
  | 0x1a => some .iload_0
  | 0x1b => some .iload_1
  | 0x1c => some .iload_2
  | 0x1d => some .iload_3
  | 0x1e => some .lload_0
  | 0x1f => some .lload_1
  | 0x20 => some .lload_2
  | 0x21 => some .lload_3
  | 0x22 => some .fload_0
  | 0x23 => some .fload_1
  | 0x24 => some .fload_2
  | 0x25 => some .fload_3
  | 0x26 => some .dload_0
  | 0x27 => some .dload_1
  | 0x28 => some .dload_2
  | 0x29 => some .dload_3
  | 0x2a => some .aload_0
  | 0x2b => some .aload_1
  | 0x2c => some .aload_2
  | 0x2d => some .aload_3
  | 0x2e => some .iaload
  | 0x2f => some .laload
  | 0x30 => some .faload
  | 0x31 => some .daload
  | 0x32 => some .aaload
  | 0x33 => some .baload
  | 0x34 => some .caload
  | 0x35 => some .saload
  | 0x36 => some .istore
  | 0x37 => some .lstore
  | 0x38 => some .fstore
  | 0x39 => some .dstore
  | 0x3a => some .astore
  | 0x3b => some .istore_0
  | 0x3c => some .istore_1
  | 0x3d => some .istore_2
  | 0x3e => some .istore_3
  | 0x3f => some .lstore_0
  | 0x40 => some .lstore_1
  | 0x41 => some .lstore_2
  | 0x42 => some .lstore_3
  | 0x43 => some .fstore_0
  | 0x44 => some .fstore_1
  | 0x45 => some .fstore_2
  | 0x46 => some .fstore_3
  | 0x47 => some .dstore_0
  | 0x48 => some .dstore_1
  | 0x49 => some .dstore_2
  | 0x4a => some .dstore_3
  | 0x4b => some .astore_0
  | 0x4c => some .astore_1
  | 0x4d => some .astore_2
  | 0x4e => some .astore_3
  | 0x4f => some .iastore
  | 0x50 => some .lastore
  | 0x51 => some .fastore
  | 0x52 => some .dastore
  | 0x53 => some .aastore
  | 0x54 => some .bastore
  | 0x55 => some .castore
  | 0x56 => some .sastore
  | 0x57 => some .pop
  | 0x58 => some .pop2
  | 0x59 => some .dup
  | 0x5a => some .dup_x1
  | 0x5b => some .dup_x2
  | 0x5c => some .dup2
  | 0x5d => some .dup2_x1
  | 0x5e => some .dup2_x2
  | 0x5f => some .swap
  | 0x60 => some .iadd
  | 0x61 => some .ladd
  | 0x62 => some .fadd
  | 0x63 => some .dadd
  | 0x64 => some .isub
  | 0x65 => some .lsub
  | 0x66 => some .fsub
  | 0x67 => some .dsub
  | 0x68 => some .imul
  | 0x69 => some .lmul
  | 0x6a => some .fmul
  | 0x6b => some .dmul
  | 0x6c => some .idiv
  | 0x6d => some .ldiv
  | 0x6e => some .fdiv
  | 0x6f => some .ddiv
  | 0x70 => some .irem
  | 0x71 => some .lrem
  | 0x72 => some .frem
  | 0x73 => some .drem
  | 0x74 => some .ineg
  | 0x75 => some .lneg
  | 0x76 => some .fneg
  | 0x77 => some .dneg
  | 0x78 => some .ishl
  | 0x79 => some .lshl
  | 0x7a => some .ishr
  | 0x7b => some .lshr
  | 0x7c => some .iushr
  | 0x7d => some .lushr
  | 0x7e => some .iand
  | 0x7f => some .land
  | 0x80 => some .ior
  | 0x81 => some .lor
  | 0x82 => some .ixor
  | 0x83 => some .lxor
  | 0x84 => some .iinc
  | 0x85 => some .i2l
  | 0x86 => some .i2f
  | 0x87 => some .i2d
  | 0x88 => some .l2i
  | 0x89 => some .l2f
  | 0x8a => some .l2d
  | 0x8b => some .f2i
  | 0x8c => some .f2l
  | 0x8d => some .f2d
  | 0x8e => some .d2i
  | 0x8f => some .d2l
  | 0x90 => some .d2f
  | 0x91 => some .i2b
  | 0x92 => some .i2c
  | 0x93 => some .i2s
  | 0x94 => some .lcmp
  | 0x95 => some .fcmpl
  | 0x96 => some .fcmpg
  | 0x97 => some .dcmpl
  | 0x98 => some .dcmpg
  | 0x99 => some .ifeq
  | 0x9a => some .ifne
  | 0x9b => some .iflt
  | 0x9c => some .ifge
  | 0x9d => some .ifgt
  | 0x9e => some .ifle
  | 0x9f => some .if_icmpeq
  | 0xa0 => some .if_icmpne
  | 0xa1 => some .if_icmplt
  | 0xa2 => some .if_icmpge
  | 0xa3 => some .if_icmpgt
  | 0xa4 => some .if_icmple
  | 0xa5 => some .if_acmpeq
  | 0xa6 => some .if_acmpne
  | 0xa7 => some .goto
  | 0xa8 => some .jsr
  | 0xa9 => some .ret
  | 0xaa => some .tableswitch
  | 0xab => some .lookupswitch
  | 0xac => some .ireturn
  | 0xad => some .lreturn
  | 0xae => some .freturn
  | 0xaf => some .dreturn
  | 0xb0 => some .areturn
  | 0xb1 => some .return_
  | 0xb2 => some .getstatic
  | 0xb3 => some .putstatic
  | 0xb4 => some .getfield
  | 0xb5 => some .putfield
  | 0xb6 => some .invokevirtual
  | 0xb7 => some .invokespecial
  | 0xb8 => some .invokestatic
  | 0xb9 => some .invokeinterface
  | 0xba => some .invokedynamic
  | 0xbb => some .new
  | 0xbc => some .newarray
  | 0xbd => some .anewarray
  | 0xbe => some .arraylength
  | 0xbf => some .athrow
  | 0xc0 => some .checkcast
  | 0xc1 => some .instanceof
  | 0xc2 => some .monitorenter
  | 0xc3 => some .monitorexit
  | 0xc4 => some .wide
  | 0xc5 => some .multianewarray
  | 0xc6 => some .ifnull
  | 0xc7 => some .ifnonnull
  | 0xc8 => some .goto_w
  | 0xc9 => some .jsr_w
  | 0xca => some .breakpoint
  | 0xfe => some .impdep1
  | 0xff => some .impdep2
  | _ => none

open Instruction in
/-- The `match opcode` dispatch of decode_instructions: given the decoded
opcode and the cursor positioned after the opcode byte, decode the operands
and produce the instruction. -/
def decodeOpcode (opcode : OpCode) (c : Cursor) : Except Err (Instruction × Cursor) :=
  match opcode with
  | .nop => .ok (.nop, c)
  | .aconst_null => .ok (.aconstNull, c)
  | .iconst_m1 => .ok (mkIconst (-1), c)
  | .iconst_0 => .ok (mkIconst 0, c)
  | .iconst_1 => .ok (mkIconst 1, c)
  | .iconst_2 => .ok (mkIconst 2, c)
  | .iconst_3 => .ok (mkIconst 3, c)
  | .iconst_4 => .ok (mkIconst 4, c)
  | .iconst_5 => .ok (mkIconst 5, c)
  | .lconst_0 => .ok (mkLconst 0, c)
  | .lconst_1 => .ok (mkLconst 1, c)
  | .fconst_0 => .ok (mkFconst 0, c)
  | .fconst_1 => .ok (mkFconst 1, c)
  | .fconst_2 => .ok (mkFconst 2, c)
  | .dconst_0 => .ok (mkDconst 0, c)
  | .dconst_1 => .ok (mkDconst 1, c)
  | .bipush => (c.readI8).map fun (v, c') => (mkBipush v, c')
  | .sipush => (c.readI16).map fun (v, c') => (mkSipush v, c')
  | .ldc => (c.readU8E).map fun (v, c') => (mkLdc v, c')
  | .ldc_w => (c.readU16).map fun (v, c') => (mkLdc v, c')
  | .ldc2_w => (c.readU16).map fun (v, c') => (mkLdc2 v, c')
  | .iload => (c.readU8E).map fun (v, c') => (mkIload v, c')
  | .lload => (c.readU8E).map fun (v, c') => (mkLload v, c')
  | .fload => (c.readU8E).map fun (v, c') => (mkFload v, c')
  | .dload => (c.readU8E).map fun (v, c') => (mkDload v, c')
  | .aload => (c.readU8E).map fun (v, c') => (mkAload v, c')
  | .iload_0 => .ok (mkIload 0, c)
  | .iload_1 => .ok (mkIload 1, c)
  | .iload_2 => .ok (mkIload 2, c)
  | .iload_3 => .ok (mkIload 3, c)
  | .lload_0 => .ok (mkLload 0, c)
  | .lload_1 => .ok (mkLload 1, c)
  | .lload_2 => .ok (mkLload 2, c)
  | .lload_3 => .ok (mkLload 3, c)
  | .fload_0 => .ok (mkFload 0, c)
  | .fload_1 => .ok (mkFload 1, c)
  | .fload_2 => .ok (mkFload 2, c)
  | .fload_3 => .ok (mkFload 3, c)
  | .dload_0 => .ok (mkDload 0, c)
  | .dload_1 => .ok (mkDload 1, c)
  | .dload_2 => .ok (mkDload 2, c)
  | .dload_3 => .ok (mkDload 3, c)
  | .aload_0 => .ok (mkAload 0, c)
  | .aload_1 => .ok (mkAload 1, c)
  | .aload_2 => .ok (mkAload 2, c)
  | .aload_3 => .ok (mkAload 3, c)
  -- iaload .. saload: the source maps the array-load opcodes to
  -- Instruction::arraystore (src/class.rs lines 319-326).
  | .iaload => .ok (mkArraystore .int, c)
  | .laload => .ok (mkArraystore .long, c)
  | .faload => .ok (mkArraystore .float, c)
  | .daload => .ok (mkArraystore .double, c)
  | .aaload => .ok (mkArraystore .reference, c)
  | .baload => .ok (mkArraystore .byte, c)
  | .caload => .ok (mkArraystore .char, c)
  | .saload => .ok (mkArraystore .short, c)
  | .istore => (c.readU8E).map fun (v, c') => (mkIstore v, c')
  | .lstore => (c.readU8E).map fun (v, c') => (mkLstore v, c')
  | .fstore => (c.readU8E).map fun (v, c') => (mkFstore v, c')
  | .dstore => (c.readU8E).map fun (v, c') => (mkDstore v, c')
  | .astore => (c.readU8E).map fun (v, c') => (mkAstore v, c')
  | .istore_0 => .ok (mkIstore 0, c)
  | .istore_1 => .ok (mkIstore 1, c)
  | .istore_2 => .ok (mkIstore 2, c)
  | .istore_3 => .ok (mkIstore 3, c)
  | .lstore_0 => .ok (mkLstore 0, c)
  | .lstore_1 => .ok (mkLstore 1, c)
  | .lstore_2 => .ok (mkLstore 2, c)
  | .lstore_3 => .ok (mkLstore 3, c)
  | .fstore_0 => .ok (mkFstore 0, c)
  | .fstore_1 => .ok (mkFstore 1, c)
  | .fstore_2 => .ok (mkFstore 2, c)
  | .fstore_3 => .ok (mkFstore 3, c)
  | .dstore_0 => .ok (mkDstore 0, c)
  | .dstore_1 => .ok (mkDstore 1, c)
  | .dstore_2 => .ok (mkDstore 2, c)
  | .dstore_3 => .ok (mkDstore 3, c)
  | .astore_0 => .ok (mkAstore 0, c)
  | .astore_1 => .ok (mkAstore 1, c)
  | .astore_2 => .ok (mkAstore 2, c)
  | .astore_3 => .ok (mkAstore 3, c)
  | .iastore => .ok (mkArraystore .int, c)
  | .lastore => .ok (mkArraystore .long, c)
  | .fastore => .ok (mkArraystore .float, c)
  | .dastore => .ok (mkArraystore .double, c)
  | .aastore => .ok (mkArraystore .reference, c)
  | .bastore => .ok (mkArraystore .byte, c)
  | .castore => .ok (mkArraystore .char, c)
  | .sastore => .ok (mkArraystore .short, c)
  | .pop => .ok (.pop, c)
  | .pop2 => .ok (.pop2, c)
  | .dup => .ok (.dup, c)
  | .dup_x1 => .ok (.dupX1, c)
  | .dup_x2 => .ok (.dupX2, c)
  | .dup2 => .ok (.dup2, c)
  | .dup2_x1 => .ok (.dup2X1, c)
  | .dup2_x2 => .ok (.dup2X2, c)
  | .swap => .ok (.swap, c)
  | .iadd => .ok (mkAdd .int, c)
  | .ladd => .ok (mkAdd .long, c)
  | .fadd => .ok (mkAdd .float, c)
  | .dadd => .ok (mkAdd .double, c)
  | .isub => .ok (mkSub .int, c)
  | .lsub => .ok (mkSub .long, c)
  | .fsub => .ok (mkSub .float, c)
  | .dsub => .ok (mkSub .double, c)
  | .imul => .ok (mkMul .int, c)
  | .lmul => .ok (mkMul .long, c)
  | .fmul => .ok (mkMul .float, c)
  | .dmul => .ok (mkMul .double, c)
  | .idiv => .ok (mkDiv .int, c)
  | .ldiv => .ok (mkDiv .long, c)
  | .fdiv => .ok (mkDiv .float, c)
  | .ddiv => .ok (mkDiv .double, c)
  | .irem => .ok (mkRem .int, c)
  | .lrem => .ok (mkRem .long, c)
  | .frem => .ok (mkRem .float, c)
  | .drem => .ok (mkRem .double, c)
  | .ineg => .ok (mkNeg .int, c)
  | .lneg => .ok (mkNeg .long, c)
  | .fneg => .ok (mkNeg .float, c)
  | .dneg => .ok (mkNeg .double, c)
  | .ishl => .ok (mkShl .int, c)
  | .lshl => .ok (mkShl .long, c)
  | .ishr => .ok (mkShr .int, c)
  | .lshr => .ok (mkShr .long, c)
  | .iushr => .ok (mkUshr .int, c)
  | .lushr => .ok (mkUshr .long, c)
  | .iand => .ok (mkAnd .int, c)
  | .land => .ok (mkAnd .long, c)
  | .ior => .ok (mkOr .int, c)
  | .lor => .ok (mkOr .long, c)
  | .ixor => .ok (mkXor .int, c)
  | .lxor => .ok (mkXor .long, c)
  | .iinc => do
      let (i, c) ← c.readU8E
      let (v, c) ← c.readI8
      .ok (mkInc i v, c)
  | .i2l => .ok (.i2l, c)
  | .i2f => .ok (.i2f, c)
  | .i2d => .ok (.i2d, c)
  | .l2i => .ok (.l2i, c)
  | .l2f => .ok (.l2f, c)
  | .l2d => .ok (.l2d, c)
  | .f2i => .ok (.f2i, c)
  | .f2l => .ok (.f2l, c)
  | .f2d => .ok (.f2d, c)
  | .d2i => .ok (.d2i, c)
  | .d2l => .ok (.d2l, c)
  | .d2f => .ok (.d2f, c)
  | .i2b => .ok (.i2b, c)
  | .i2c => .ok (.i2c, c)
  | .i2s => .ok (.i2s, c)
  | .lcmp => .ok (.lcmp, c)
  | .fcmpl => .ok (mkFcmp .lt, c)
  | .fcmpg => .ok (mkFcmp .gt, c)
  | .dcmpl => .ok (mkDcmp .lt, c)
  | .dcmpg => .ok (mkDcmp .gt, c)
  | .ifeq => (c.readI16).map fun (v, c') => (mkIf .eq v, c')
  | .ifne => (c.readI16).map fun (v, c') => (mkIf .ne v, c')
  | .iflt => (c.readI16).map fun (v, c') => (mkIf .lt v, c')
  | .ifge => (c.readI16).map fun (v, c') => (mkIf .ge v, c')
  | .ifgt => (c.readI16).map fun (v, c') => (mkIf .gt v, c')
  | .ifle => (c.readI16).map fun (v, c') => (mkIf .le v, c')
  | .if_icmpeq => (c.readI16).map fun (v, c') => (mkIfIcmp .eq v, c')
  | .if_icmpne => (c.readI16).map fun (v, c') => (mkIfIcmp .ne v, c')
  | .if_icmplt => (c.readI16).map fun (v, c') => (mkIfIcmp .lt v, c')
  | .if_icmpge => (c.readI16).map fun (v, c') => (mkIfIcmp .ge v, c')
  | .if_icmpgt => (c.readI16).map fun (v, c') => (mkIfIcmp .gt v, c')
  | .if_icmple => (c.readI16).map fun (v, c') => (mkIfIcmp .le v, c')
  | .if_acmpeq => (c.readI16).map fun (v, c') => (mkIfAcmp .eq v, c')
  | .if_acmpne => (c.readI16).map fun (v, c') => (mkIfAcmp .ne v, c')
  | .goto => (c.readI16).map fun (v, c') => (mkGoto v, c')
  | .jsr => (c.readI16).map fun (v, c') => (mkJsr v, c')
  | .ret => (c.readU8E).map fun (v, c') => (mkRet v, c')
  | .tableswitch => do
      -- tableswitch is decoded structurally for size-stepping only
      let c := c.alignTo 4
      let (_default, c) ← c.readI32
      let (low, c) ← c.readI32
      let (high, c) ← c.readI32
      let count := high - low + 1
      -- cursor.set_position(position + count as u64 * 4)
      let c := c.setPosition (c.pos + ((count.emod (2 ^ 64)).toNat * 4) % 2 ^ 64)
      .ok (.tableswitch, c)
  | .lookupswitch => do
      let c := c.alignTo 4
      let (_default, c) ← c.readI32
      let (npairs, c) ← c.readI32
      let c := c.setPosition (c.pos + ((npairs.emod (2 ^ 64)).toNat * 8) % 2 ^ 64)
      .ok (.lookupswitch, c)
  | .ireturn => .ok (mkReturn .int, c)
  | .lreturn => .ok (mkReturn .long, c)
  | .freturn => .ok (mkReturn .float, c)
  | .dreturn => .ok (mkReturn .double, c)
  | .areturn => .ok (mkReturn .reference, c)
  | .return_ => .ok (mkReturn .void, c)
  | .getstatic => (c.readU16).map fun (v, c') => (mkGetstatic v, c')
  | .putstatic => (c.readU16).map fun (v, c') => (mkPutstatic v, c')
  | .getfield => (c.readU16).map fun (v, c') => (mkGetfield v, c')
  | .putfield => (c.readU16).map fun (v, c') => (mkPutfield v, c')
  | .invokevirtual => (c.readU16).map fun (v, c') => (mkInvoke .virtual v, c')
  | .invokespecial => (c.readU16).map fun (v, c') => (mkInvoke .special v, c')
  | .invokestatic => (c.readU16).map fun (v, c') => (mkInvoke .static v, c')
  | .invokeinterface => do
      let (index, c) ← c.readU16
      let (count, c) ← c.readU8E
      if count = 0 then bailE "invokeinterface count must not be 0"
      else do
        let (zb, c) ← c.readU8E
        if zb ≠ 0 then bailE "invalid bytes found in invokeinterface instruction"
        else .ok (mkInvoke (.interface count) index, c)
  | .invokedynamic => do
      let (index, c) ← c.readU16
      let (zb, c) ← c.readU16
      if zb ≠ 0 then bailE "invalid bytes found in invokedynamic instruction"
      else .ok (mkInvoke .dynamic index, c)
  | .new => (c.readU16).map fun (v, c') => (mkNew v, c')
  | .newarray => do
      let (v, c) ← c.readU8E
      match ArrayType.fromRepr v with
      | none => bailE "invalid array type"
      | some t => .ok (mkNewarray t, c)
  | .anewarray => (c.readU16).map fun (v, c') => (mkAnewarray v, c')
  | .arraylength => .ok (.arraylength, c)
  | .athrow => .ok (.athrow, c)
  | .checkcast => (c.readU16).map fun (v, c') => (mkCheckcast v, c')
  | .instanceof => (c.readU16).map fun (v, c') => (mkInstanceof v, c')
  | .monitorenter => .ok (.monitorenter, c)
  | .monitorexit => .ok (.monitorexit, c)
  | .wide => panicE "not yet implemented: wide"
  | .multianewarray => do
      let (i, c) ← c.readU16
      let (d, c) ← c.readU8E
      .ok (mkMultianewarray i d, c)
  | .ifnull => (c.readI16).map fun (v, c') => (mkIfnull v, c')
  | .ifnonnull => (c.readI16).map fun (v, c') => (mkIfnonnull v, c')
  | .goto_w => (c.readI32).map fun (v, c') => (mkGoto v, c')
  | .jsr_w => (c.readI32).map fun (v, c') => (mkJsr v, c')
  | .breakpoint => bailE "unexpected opcode: breakpoint"
  | .impdep1 => bailE "unexpected opcode: impdep1"
  | .impdep2 => bailE "unexpected opcode: impdep2"


/-- Reading one opcode: `OpCode::from_repr(opcode).wrap_err_with(..)?`
followed by the dispatch match. -/
def decodeOp (b : Nat) (c : Cursor) : Except Err (Instruction × Cursor) :=
  match OpCode.fromRepr b with
  | none => bailE "unknown opcode"
  | some opcode => decodeOpcode opcode c

/-- The decode loop of decode_instructions.  Accumulators are built in
reverse (constant-time push) and reversed on exit; `idxMap` is the
association list of writes `index_map[address] = i` (the Vec in the source
is zero-initialised, so a missing key reads as 0, see `indexMapGet`).
`fuel` only serves termination: every iteration advances the cursor
position by at least one, so `bytes.length + 1` steps always suffice and
the fuel-exhaustion branch is unreachable from `decodeInstructions`. -/
def decodeLoop : Nat → Cursor → List Instruction → List Nat → List (Nat × Nat) → Nat →
    Except Err (List Instruction × List Nat × List (Nat × Nat))
  | 0, _, _, _, _, _ => bailE "model: decode fuel exhausted"
  | fuel + 1, c, instrs, addrMap, idxMap, i =>
    match c.readU8 with
    | none => .ok (instrs.reverse, addrMap.reverse, idxMap)
    | some (b, c1) =>
      let addr := c1.pos - 1
      match decodeOp b c1 with
      | .error e => .error e
      | .ok (ins, c2) =>
        decodeLoop fuel c2 (ins :: instrs) (addr :: addrMap) ((addr, i) :: idxMap) (i + 1)

/-- Read of `index_map[t]`: the Vec is zero-initialised and each
instruction start address is written exactly once, so a missing key is 0. -/
def indexMapGet (idxMap : List (Nat × Nat)) (t : Nat) : Nat :=
  match idxMap.find? (fun p => p.1 = t) with
  | some p => p.2
  | none => 0

/-- The `address_to_index` macro: rewrite one branch operand of the
instruction at index `i`.  `width` is the bit width of the `as` cast the
macro applies (i16 for short branches, i32 for goto/jsr). -/
def addressToIndex (bytesLen : Nat) (addrMap : List Nat) (idxMap : List (Nat × Nat))
    (i : Nat) (width : Nat) (branch : Int) : Except Err Int :=
  match addrMap.get? i with
  | none => panicE "index out of bounds"
  | some a =>
    -- address_map[i].checked_add_signed(branch).unwrap()
    let t := (a : Int) + branch
    if t < 0 then panicE "called Option::unwrap on a None value"
    else if bytesLen ≤ t.toNat then panicE "index out of bounds"
    else .ok (wrapSigned width ((indexMapGet idxMap t.toNat : Int) - (i : Int)))

/-- The rewrite applied to the instruction at index `i` by the second pass
of decode_instructions. -/
def rewriteBranch (bytesLen : Nat) (addrMap : List Nat) (idxMap : List (Nat × Nat))
    (i : Nat) : Instruction → Except Err Instruction
  | .ifCond cond b => (addressToIndex bytesLen addrMap idxMap i 16 b).map (.ifCond cond ·)
  | .ifIcmp cond b => (addressToIndex bytesLen addrMap idxMap i 16 b).map (.ifIcmp cond ·)
  | .ifAcmp cond b => (addressToIndex bytesLen addrMap idxMap i 16 b).map (.ifAcmp cond ·)
  | .goto b => (addressToIndex bytesLen addrMap idxMap i 32 b).map (.goto ·)
  | .jsr b => (addressToIndex bytesLen addrMap idxMap i 32 b).map (.jsr ·)
  | .ifnull b => (addressToIndex bytesLen addrMap idxMap i 16 b).map (.ifnull ·)
  | .ifnonnull b => (addressToIndex bytesLen addrMap idxMap i 16 b).map (.ifnonnull ·)
  | ins => .ok ins

/-- The enumerated second pass over the decoded instruction vector
(an in-place iter_mut in the source; here an accumulating traversal). -/
def rewriteGo (bytesLen : Nat) (addrMap : List Nat) (idxMap : List (Nat × Nat)) :
    Nat → List Instruction → List Instruction → Except Err (List Instruction)
  | _, acc, [] => .ok acc.reverse
  | i, acc, ins :: tl =>
    match rewriteBranch bytesLen addrMap idxMap i ins with
    | .error e => .error e
    | .ok ins' => rewriteGo bytesLen addrMap idxMap (i + 1) (ins' :: acc) tl

/-- decode_instructions (src/class.rs): decode loop followed by the branch
rewrite pass. -/
def decodeInstructions (bytes : List Nat) : Except Err (List Instruction) := do
  let (instrs, addrMap, idxMap) ←
    decodeLoop (bytes.length + 1) (Cursor.new bytes) [] [] [] 0
  rewriteGo bytes.length addrMap idxMap 0 [] instrs

/-! ## Access flags (src/class_file.rs)

bitflags values; `contains` is a bit test. -/

/-- `self.contains(other)` for bitflags: all bits of `other` are set. -/
def hasFlag (flags other : Nat) : Bool := flags.land other = other

namespace MethodAccessFlags

def PRIVATE : Nat := 0x0002
def STATIC : Nat := 0x0008
def SYNCHRONIZED : Nat := 0x0020
def NATIVE : Nat := 0x0100

end MethodAccessFlags

namespace FieldAccessFlags

def STATIC : Nat := 0x0008

end FieldAccessFlags

/-! ## Descriptors (src/descriptor.rs) -/

inductive BaseTypeM where
  | byte | char | double | float | int | long | short | boolean
  | object (name : String)
deriving DecidableEq

inductive FieldTypeM where
  | base (t : BaseTypeM)
  | array (dims : Nat) (t : BaseTypeM)
deriving DecidableEq

structure FieldDescM where
  fieldType : FieldTypeM
deriving DecidableEq

structure MethodDescM where
  params : List FieldTypeM
  returnType : Option FieldTypeM
deriving DecidableEq

/-- `terminated(take_till(.., ';'), ';')` for the object-name branch. -/
def takeObjectName (l : List Char) : Option (String × List Char) :=
  let pre := l.takeWhile (· ≠ ';')
  match l.drop pre.length with
  | ';' :: tl => some (String.mk pre, tl)
  | _ => none

/-- parse_base_type: dispatch on one consumed character. -/
def parseBaseType : List Char → Option (BaseTypeM × List Char)
  | [] => none
  | ch :: rest =>
    if ch = 'L' then (takeObjectName rest).map fun (n, r) => (.object n, r)
    else if ch = 'B' then some (.byte, rest)
    else if ch = 'C' then some (.char, rest)
    else if ch = 'D' then some (.double, rest)
    else if ch = 'F' then some (.float, rest)
    else if ch = 'I' then some (.int, rest)
    else if ch = 'J' then some (.long, rest)
    else if ch = 'S' then some (.short, rest)
    else if ch = 'Z' then some (.boolean, rest)
    else none

/-- parse_array_type: `take_while(1.., '[')` then a base type. -/
def parseArrayType (l : List Char) : Option ((Nat × BaseTypeM) × List Char) :=
  let depth := (l.takeWhile (· = '[')).length
  if depth = 0 then none
  else (parseBaseType (l.drop depth)).map fun (t, r) => ((depth, t), r)

/-- parse_field_type: `alt((base, array))`. -/
def parseFieldType (l : List Char) : Option (FieldTypeM × List Char) :=
  match parseBaseType l with
  | some (t, r) => some (.base t, r)
  | none => (parseArrayType l).map fun ((n, t), r) => (.array n t, r)

/-- `repeat(.., parse_field_type)`: zero or more field types, greedily.
The fuel is the input length (each field type consumes at least one
character). -/
def parseFieldTypes : Nat → List Char → List FieldTypeM × List Char
  | 0, l => ([], l)
  | fuel + 1, l =>
    match parseFieldType l with
    | none => ([], l)
    | some (t, r) =>
      let (ts, r') := parseFieldTypes fuel r
      (t :: ts, r')

/-- parse_return_type: `alt(("V".map(None), field_type.map(Some)))`. -/
def parseReturnType (l : List Char) : Option (Option FieldTypeM × List Char) :=
  match l with
  | 'V' :: tl => some (none, tl)
  | _ => (parseFieldType l).map fun (t, r) => (some t, r)

/-- parse_field_descriptor: a complete parse of the whole string. -/
def parseFieldDescriptor (s : String) : Except Err FieldDescM :=
  match parseFieldType s.toList with
  | some (t, []) => .ok ⟨t⟩
  | _ => bailE ("invalid field descriptor: " ++ s)

/-- parse_method_descriptor: `(params) return`, consuming the whole string. -/
def parseMethodDescriptor (s : String) : Except Err MethodDescM :=
  match s.toList with
  | '(' :: rest =>
    let (params, r) := parseFieldTypes rest.length rest
    match r with
    | ')' :: r2 =>
      match parseReturnType r2 with
      | some (rt, []) => .ok ⟨params, rt⟩
      | _ => bailE ("invalid method descriptor: " ++ s)
    | _ => bailE ("invalid method descriptor: " ++ s)
  | _ => bailE ("invalid method descriptor: " ++ s)

/-! ## Value model (JvmValue in src/call_frame.rs)

Float payloads are kept as raw bit patterns; no verified property touches
floating point. -/

inductive JvmValue where
  | byte (v : Int)
  | short (v : Int)
  | int (v : Int)
  | long (v : Int)
  | char (v : Nat)
  | float (bits : Nat)
  | double (bits : Nat)
  | boolean (v : Bool)
  | returnAddress (v : Nat)
  | reference (addr : Nat)
  | stringConst (s : String)
deriving DecidableEq

/-- strum EnumTryAs `try_as_int`. -/
def JvmValue.tryAsInt : JvmValue → Option Int
  | .int v => some v
  | _ => none

/-! ## Constant pool (src/class_file.rs) -/

inductive ConstantInfo where
  | unused
  | utf8 (s : String)
  | integer (v : Int)
  | floatBits (v : Nat)
  | longVal (v : Int)
  | doubleBits (v : Nat)
  | classRef (nameIndex : Nat)
  | stringRef (stringIndex : Nat)
  | fieldRef (classIndex nameAndTypeIndex : Nat)
  | methodRef (classIndex nameAndTypeIndex : Nat)
  | interfaceMethodRef (classIndex nameAndTypeIndex : Nat)
  | nameAndType (nameIndex descriptorIndex : Nat)
  | methodHandle (referenceKind referenceIndex : Nat)
  | methodType (descriptorIndex : Nat)
  | dynamic (bootstrapMethodAttrIndex nameAndTypeIndex : Nat)
  | invokeDynamic (bootstrapMethodAttrIndex nameAndTypeIndex : Nat)
  | moduleInfo (nameIndex : Nat)
  | packageInfo (nameIndex : Nat)
deriving DecidableEq

/-- The 1-based `Index<u16>` impl of ConstantPool: `self.0[index - 1]`,
panicking on index 0 (usize underflow) or out of range. -/
def cpIndex (cp : List ConstantInfo) (i : Nat) : Except Err ConstantInfo :=
  if i = 0 then panicE "index out of bounds"
  else
    match cp.get? (i - 1) with
    | some e => .ok e
    | none => panicE "index out of bounds"

/-- Constant-pool utf8 read through `.try_as_utf_8_ref().wrap_err(..)?`. -/
def cpUtf8 (cp : List ConstantInfo) (i : Nat) : Except Err String := do
  match ← cpIndex cp i with
  | .utf8 s => .ok s
  | _ => bailE "expected utf8"

/-- Constant-pool utf8 read through `.try_as_utf_8_ref().unwrap()`
(a panic on the wrong entry kind, as in Class::new). -/
def cpUtf8Unwrap (cp : List ConstantInfo) (i : Nat) : Except Err String := do
  match ← cpIndex cp i with
  | .utf8 s => .ok s
  | _ => panicE "called Option::unwrap on a None value"

/-! ## Association lists standing in for hashbrown::HashMap

Keys in the source maps are unique; `alInsert` replaces the value of an
existing key without growing the map, exactly like HashMap::insert. -/

def alFind {κ ν : Type} [DecidableEq κ] : List (κ × ν) → κ → Option ν
  | [], _ => none
  | (k, v) :: tl, key => if k = key then some v else alFind tl key

def alInsert {κ ν : Type} [DecidableEq κ] : List (κ × ν) → κ → ν → List (κ × ν)
  | [], k, v => [(k, v)]
  | (k', v') :: tl, k, v =>
    if k' = k then (k, v) :: tl else (k', v') :: alInsert tl k v

/-! ## Linked classes (src/class.rs)

A linked Class borrows its super class from the metadata arena; the model
replaces the borrow by an index into a class table (`ClassTable`), the
standard shallow embedding of a pointer-linked immutable graph.  Static
field slots are omitted: no verified property touches them. -/

structure FieldC where
  name : String
  descriptor : FieldTypeM
  accessFlags : Nat
deriving DecidableEq

structure MethodBodyC where
  localsCount : Nat
  stackSize : Nat
  code : List Instruction

structure MethodC where
  descriptor : MethodDescM
  accessFlags : Nat
  body : Option MethodBodyC

structure ClassC where
  name : String
  thisClass : Nat
  constantPool : List ConstantInfo
  superClass : Option Nat
  methods : List ((String × String) × MethodC)
  fields : List FieldC
  fieldOrdinals : List ((String × String) × Nat)

def ClassTable := List ClassC

/-- `Class::method(name, descriptor)`: lookup in the method map. -/
def ClassC.methodLookup (c : ClassC) (name descriptor : String) : Option MethodC :=
  alFind c.methods (name, descriptor)

/-- Dereference a class index (a borrowed `&Class` in the source; a dangling
index cannot arise there, so the failure is a model-side error). -/
def classGet (env : ClassTable) (i : Nat) : Except Err ClassC :=
  match List.get? (α := ClassC) env i with
  | some c => .ok c
  | none => bailE "model: dangling class reference"

/-! ## Heap (RefTypeHeader in src/call_frame.rs)

Only the header is modelled: an address maps to either an object header
(carrying the owning class) or an array header.  Address 0 is null and is
never in the heap. -/

inductive HeapObj where
  | object (classIdx : Nat)
  | array (atype : ArrayType) (length : Nat)
deriving DecidableEq

def Heap := List (Nat × HeapObj)

/-! ## Frame interpreter: per-instruction step semantics
(CallFrame::execute in src/call_frame.rs)

The operand stack is a list whose head is the top (the last element of the
Rust Vec).  `execInstr` covers every arm of the dispatch that acts only on
locals and the operand stack; the arms that act on the heap, the constant
pool or the VM (ldc, invoke, newarray, arraylength, arraystore,
putstatic, getstatic, new, putfield, getfield) are modelled separately at
the invoke level (`executeInvoke`) and report a model-side error here. -/

structure FrameState where
  locals : List (Option JvmValue)
  stack : List JvmValue
deriving DecidableEq

inductive StepOut where
  | next (s : FrameState) (offset : Int)
  | ret (value : Option JvmValue)
deriving DecidableEq

/-- Indexing `self.locals[i]` (panics when out of bounds). -/
def localsGet (locals : List (Option JvmValue)) (i : Nat) :
    Except Err (Option JvmValue) :=
  match locals.get? i with
  | some l => .ok l
  | none => panicE "index out of bounds"

/-- Assignment `self.locals[i] = v` (panics when out of bounds). -/
def localsSet (locals : List (Option JvmValue)) (i : Nat) (v : Option JvmValue) :
    Except Err (List (Option JvmValue)) :=
  if i < locals.length then .ok (locals.set i v)
  else panicE "index out of bounds"

/-- The `Condition` comparison of if_icmp: `v1 cond v2`. -/
def condHolds (c : Condition) (v1 v2 : Int) : Bool :=
  match c with
  | .eq => v1 = v2
  | .ne => v1 ≠ v2
  | .lt => v1 < v2
  | .le => v1 ≤ v2
  | .gt => v1 > v2
  | .ge => v1 ≥ v2

open MethodAccessFlags in
/-- One iteration of the dispatch loop of CallFrame::execute, for the
pure-frame instructions.  `accessFlags` are the running method's flags
(consulted again by the return arm). -/
def execInstr (accessFlags : Nat) (ins : Instruction) (s : FrameState) :
    Except Err StepOut :=
  match ins with
  | .retOp dataType =>
    if hasFlag accessFlags SYNCHRONIZED then
      panicE "not yet implemented: synchronized methods"
    else
      match dataType with
      | .void => .ok (.ret none)
      | .int =>
        match s.stack with
        | [] => bailE "missing return value"
        | v :: _ => .ok (.ret (some v))
      | _ => panicE "not yet implemented"
  | .constOp dataType value =>
    match dataType with
    | .int => .ok (.next ⟨s.locals, .int value :: s.stack⟩ 1)
    | _ => panicE "not yet implemented"
  | .store .int index =>
    match s.stack with
    | [] => bailE "no operand provided to istore"
    | operand :: tl =>
      match operand with
      | .byte v => (localsSet s.locals index (some (.byte v))).map (.next ⟨·, tl⟩ 1)
      | .stringConst _ => panicE "not yet implemented"
      | .int v => (localsSet s.locals index (some (.int v))).map (.next ⟨·, tl⟩ 1)
      | _ => panicE "not yet implemented"
  | .store .reference index =>
    match s.stack with
    | [] => bailE "no operand provided to istore"
    | operand :: tl =>
      match operand with
      | .reference v =>
        (localsSet s.locals index (some (.reference v))).map (.next ⟨·, tl⟩ 1)
      | .returnAddress v =>
        (localsSet s.locals index (some (.returnAddress v))).map (.next ⟨·, tl⟩ 1)
      | _ => panicE "internal error: entered unreachable code"
  | .load .int index => do
    match ← localsGet s.locals index with
    | none => .ok (.next ⟨s.locals, .int 0 :: s.stack⟩ 1)
    | some (.int v) => .ok (.next ⟨s.locals, .int v :: s.stack⟩ 1)
    | some (.byte v) => .ok (.next ⟨s.locals, .int v :: s.stack⟩ 1)
    | some _ => bailE "iload called with invalid local"
  | .load .reference index => do
    match ← localsGet s.locals index with
    | none => .ok (.next ⟨s.locals, .reference 0 :: s.stack⟩ 1)
    | some (.reference v) => .ok (.next ⟨s.locals, .reference v :: s.stack⟩ 1)
    | some (.returnAddress v) => .ok (.next ⟨s.locals, .returnAddress v :: s.stack⟩ 1)
    | some (.stringConst v) => .ok (.next ⟨s.locals, .stringConst v :: s.stack⟩ 1)
    | some _ => bailE "aload called with invalid local"
  | .add dataType =>
    match s.stack with
    | a :: b :: tl =>
      match dataType with
      | .int =>
        match a.tryAsInt, b.tryAsInt with
        | some x, some y => .ok (.next ⟨s.locals, .int (wrapI32 (x + y)) :: tl⟩ 1)
        | _, _ => bailE "invalid type"
      | _ => panicE "not yet implemented"
    | _ => bailE "missing add operand"
  | .bipush value => .ok (.next ⟨s.locals, .int value :: s.stack⟩ 1)
  | .ifIcmp condition branch =>
    match s.stack with
    | v2 :: v1 :: tl =>
      match v2.tryAsInt, v1.tryAsInt with
      | some y, some x =>
        .ok (.next ⟨s.locals, tl⟩ (if condHolds condition x y then branch else 1))
      | _, _ => panicE "called Option::unwrap on a None value"
    | _ => panicE "called Option::unwrap on a None value"
  | .rem dataType =>
    match dataType with
    | .int =>
      match s.stack with
      | v2 :: v1 :: tl =>
        match v2.tryAsInt, v1.tryAsInt with
        | some y, some x =>
          if y = 0 then
            panicE "attempt to calculate the remainder with a divisor of zero"
          else .ok (.next ⟨s.locals, .int (Int.tmod x y) :: tl⟩ 1)
        | _, _ => panicE "called Option::unwrap on a None value"
      | _ => panicE "called Option::unwrap on a None value"
    | _ => panicE "not yet implemented"
  | .ifCond condition branch =>
    match s.stack with
    | [] => bailE "missing operand for if comparison"
    | v :: tl =>
      match v.tryAsInt with
      | none => bailE "expected int"
      | some value =>
        .ok (.next ⟨s.locals, tl⟩ (if condHolds condition value 0 then branch else 1))
  | .goto branch => .ok (.next s branch)
  | .inc index value => do
    match ← localsGet s.locals index with
    | some (.int v) =>
      (localsSet s.locals index (some (.int (wrapI32 (v + value))))).map (.next ⟨·, s.stack⟩ 1)
    | _ => panicE "called Option::unwrap on a None value"
  | .aconstNull => .ok (.next ⟨s.locals, .reference 0 :: s.stack⟩ 1)
  | .dup =>
    match s.stack with
    | [] => bailE "operand stack is empty"
    | v :: tl => .ok (.next ⟨s.locals, v :: v :: tl⟩ 1)
  | .ldc _ | .invoke _ _ | .newarray _ | .arraylength | .arraystore _
  | .putstatic _ | .getstatic _ | .newObj _ | .putfield _ | .getfield _ =>
    bailE "model: instruction acts on the VM or heap and is modelled separately"
  | _ => panicE "not yet implemented: unimplemented instruction"

/-- The pc-driven execution loop of CallFrame::execute.  The program
counter update is `pc.checked_add_signed(next_instruction_offset)` with the
wrap_err message of the source; fetching past the end of the code vector is
the `body.code[pc]` indexing panic.  The fuel only bounds the number of
iterations (the source loop can run forever); the fuel-exhaustion result is
a model-side error. -/
def execLoop (accessFlags : Nat) (code : List Instruction) :
    Nat → FrameState → Nat → Except Err (Option JvmValue)
  | 0, _, _ => bailE "model: execution fuel exhausted"
  | fuel + 1, s, pc =>
    match List.get? (α := Instruction) code pc with
    | none => panicE "index out of bounds"
    | some ins =>
      match execInstr accessFlags ins s with
      | .error e => .error e
      | .ok (.ret v) => .ok v
      | .ok (.next s' offset) =>
        if (pc : Int) + offset < 0 then bailE "program counter overflowed"
        else execLoop accessFlags code fuel s' ((pc : Int) + offset).toNat

open MethodAccessFlags in
/-- CallFrame::execute: the body must exist, SYNCHRONIZED methods hit the
`todo!` panic before any instruction runs, otherwise the dispatch loop
starts at pc 0. -/
def executeFrame (fuel : Nat) (method : MethodC) (s : FrameState) :
    Except Err (Option JvmValue) :=
  match method.body with
  | none => bailE "missing method body"
  | some body =>
    if hasFlag method.accessFlags SYNCHRONIZED then
      panicE "not yet implemented: synchronized methods"
    else execLoop method.accessFlags body.code fuel s 0

/-- CallFrame::new: locals is a vector of `body.locals` empty slots, and
the argument iterator is written into slots 0.. in iteration order. -/
def callFrameNewLocals (method : MethodC) (args : List JvmValue) :
    Except Err (List (Option JvmValue)) :=
  match method.body with
  | none => bailE "missing method body"
  | some body => assign (List.replicate body.localsCount none) 0 args
where
  assign (locals : List (Option JvmValue)) (i : Nat) :
      List JvmValue → Except Err (List (Option JvmValue))
    | [] => .ok locals
    | a :: rest => do assign (← localsSet locals i (some a)) (i + 1) rest

/-! ## Method resolution and dispatch (CallFrame::execute_invoke) -/

/-- The resolution loop: look up (name, descriptor) starting at class
`ci`, walking the super chain; reaching a class without a super fails with
the wrap_err error.  The source walks borrowed pointers of a finite
acyclic class graph; the fuel makes the same walk structurally terminating
and `lookupMethod` supplies more fuel than there are classes. -/
def findMethodChain (env : ClassTable) : Nat → Nat → String → String →
    Except Err (Nat × MethodC)
  | 0, _, _, _ => bailE "model: super chain fuel exhausted"
  | fuel + 1, ci, name, descriptor => do
    let c ← classGet env ci
    match c.methodLookup name descriptor with
    | some m => .ok (ci, m)
    | none =>
      match c.superClass with
      | some s => findMethodChain env fuel s name descriptor
      | none => bailE ("method not found: " ++ name ++ descriptor)

def lookupMethod (env : ClassTable) (ci : Nat) (name descriptor : String) :
    Except Err (Nat × MethodC) :=
  findMethodChain env (List.length (α := ClassC) env + 1) ci name descriptor

open MethodAccessFlags in
/-- Virtual method selection of execute_invoke: a PRIVATE resolved method
is used directly (as for invokespecial); otherwise the receiver's header
is read and the super-chain lookup is repeated starting from the
receiver's actual class.  A receiver that is not a reference, a null or
dangling reference, or an array receiver all abort (unwrap / todo in the
source). -/
def selectVirtual (env : ClassTable) (heap : Heap) (resolvedIdx : Nat)
    (resolved : MethodC) (name descriptor : String) (receiver : JvmValue) :
    Except Err (Nat × MethodC) :=
  if hasFlag resolved.accessFlags PRIVATE then .ok (resolvedIdx, resolved)
  else
    match receiver with
    | .reference addr =>
      match alFind heap addr with
      | some (.object ci) => lookupMethod env ci name descriptor
      | some (.array _ _) => panicE "not yet implemented"
      | none => panicE "invalid object reference"
    | _ => panicE "called Option::unwrap on a None value"

/-- The argument iterator of the static invoke path: one
`operand_stack.pop().unwrap()` per declared parameter (so the top of the
stack comes first), each popped value passed through the coercion match
that accepts Int and `todo!`s on anything else. -/
def staticPopArgs : List FieldTypeM → List JvmValue →
    Except Err (List JvmValue × List JvmValue)
  | [], stack => .ok ([], stack)
  | _ :: params, stack =>
    match stack with
    | [] => panicE "called Option::unwrap on a None value"
    | v :: tl =>
      match v with
      | .int n =>
        (staticPopArgs params tl).map fun (args, st) => (.int n :: args, st)
      | _ => panicE "not yet implemented"

/-- What execute_invoke does after selecting a target, up to and including
construction of the callee frame's locals and the caller-stack effect of
consuming the arguments.  (The recursive `CallFrame::execute` of the callee
and the push of its return value operate on the resulting setup and are not
needed by the verified properties.) -/
inductive InvokeOutcome where
  | intrinsic (name : String) (stackAfter : List JvmValue)
  | frameCall (classIdx : Nat) (method : MethodC)
      (calleeLocals : List (Option JvmValue)) (callerStack : List JvmValue)

open MethodAccessFlags in
/-- CallFrame::execute_invoke up to the construction of the callee frame:
constant-pool resolution of the method ref, target-class resolution (the
running class if the ref names its own this_class index, otherwise a load
by name, modelled as a lookup among the linked classes), the super-chain
resolution loop, and the per-kind argument consumption.  `nowMillis` is
the abstracted VM clock used by the currentTimeMillis intrinsic. -/
def executeInvoke (env : ClassTable) (heap : Heap) (nowMillis : Int)
    (selfIdx : Nat) (stack : List JvmValue) (constIndex : Nat)
    (kind : InvokeKind) : Except Err InvokeOutcome := do
  let self ← classGet env selfIdx
  let (mrClassIndex, mrNatIndex) ←
    match ← cpIndex self.constantPool constIndex with
    | .methodRef ci ni => .ok (ci, ni)
    | _ => bailE "expected methodref"
  let (nameIndex, descriptorIndex) ←
    match ← cpIndex self.constantPool mrNatIndex with
    | .nameAndType ni di => .ok (ni, di)
    | _ => bailE "expected name_and_type"
  let name ← cpUtf8 self.constantPool nameIndex
  let descriptor ← cpUtf8 self.constantPool descriptorIndex
  let targetIdx ←
    if mrClassIndex = self.thisClass then .ok selfIdx
    else do
      let nameIdx ←
        match ← cpIndex self.constantPool mrClassIndex with
        | .classRef n => .ok n
        | _ => bailE "expected class"
      let targetClassName ← cpUtf8 self.constantPool nameIdx
      -- vm.load_class_file(target_class_name): the VM returns the linked
      -- class of that name (registry behaviour; see VmState below).
      match List.findIdx? (fun c => c.name = targetClassName) env with
      | some j => .ok j
      | none => bailE ("failed to read class file at " ++ targetClassName)
  let (resIdx, method) ← lookupMethod env targetIdx name descriptor
  match kind with
  | .static =>
    if hasFlag method.accessFlags NATIVE then
      if name = "registerNatives" then .ok (.intrinsic name stack)
      else if name = "print" then
        match stack with
        | [] => bailE "missing argument to print"
        | _ :: tl => .ok (.intrinsic name tl)
      else if name = "currentTimeMillis" then
        .ok (.intrinsic name (.long nowMillis :: stack))
      else panicE ("not implemented: " ++ name ++ descriptor)
    else do
      let (args, stackAfter) ← staticPopArgs method.descriptor.params stack
      -- CallFrame::new(self.class, method, args, ..): the caller's class!
      let locals ← callFrameNewLocals method args
      .ok (.frameCall selfIdx method locals stackAfter)
  | .special => do
    let nargs := method.descriptor.params.length + 1
    if stack.length < nargs then panicE "attempt to subtract with overflow"
    else do
      -- args = &self.operand_stack[args_start..], cloned in slice order
      let args := (stack.take nargs).reverse
      let locals ← callFrameNewLocals method args
      .ok (.frameCall resIdx method locals (stack.drop nargs))
  | .virtual => do
    let nargs := method.descriptor.params.length + 1
    if stack.length < nargs then panicE "attempt to subtract with overflow"
    else do
      let args := (stack.take nargs).reverse
      match args with
      | [] => panicE "index out of bounds"
      | receiver :: _ => do
        let (selIdx, selMethod) ←
          selectVirtual env heap resIdx method name descriptor receiver
        let locals ← callFrameNewLocals selMethod args
        .ok (.frameCall selIdx selMethod locals (stack.drop nargs))
  | _ => panicE ("not yet implemented: invoke " ++ name ++ descriptor)

/-! ## Instance-field linking (Class::new in src/class.rs)

The instance-field list starts as a clone of the super class's list and the
ordinal map as a copy of the super's map (`extend` of an empty map); every
non-static declared field is appended and given ordinal
`field_ordinals.len()` evaluated before the insert. -/

structure FieldInfoM where
  accessFlags : Nat
  nameIndex : Nat
  descriptorIndex : Nat

open FieldAccessFlags in
/-- The declared-field loop of Class::new, starting from the cloned super
state. -/
def linkFieldsGo (cp : List ConstantInfo) :
    List FieldInfoM → List FieldC → List ((String × String) × Nat) →
    Except Err (List FieldC × List ((String × String) × Nat))
  | [], fields, ordinals => .ok (fields, ordinals)
  | f :: rest, fields, ordinals =>
    if hasFlag f.accessFlags STATIC then linkFieldsGo cp rest fields ordinals
    else do
      let name ← cpUtf8Unwrap cp f.nameIndex
      let descriptorStr ← cpUtf8Unwrap cp f.descriptorIndex
      let descriptor ← parseFieldDescriptor descriptorStr
      linkFieldsGo cp rest
        (fields ++ [⟨name, descriptor.fieldType, f.accessFlags⟩])
        (alInsert ordinals (name, descriptorStr) ordinals.length)

/-- The instance-field part of Class::new: `superFields`/`superOrdinals`
are the cloned list and copied map of the super class (empty without a
super), `raws` the field records of the raw class file. -/
def linkInstanceFields (cp : List ConstantInfo) (superFields : List FieldC)
    (superOrdinals : List ((String × String) × Nat)) (raws : List FieldInfoM) :
    Except Err (List FieldC × List ((String × String) × Nat)) :=
  linkFieldsGo cp raws superFields superOrdinals

/-! ## VM class registry (spec section 4.5)

Modelled from the spec: the `Vm` type in the snapshot's src/vm.rs is a
stale revision (a single arena field and a `load_class_file` that always
re-reads the file); it does not type-check against its users — call_frame.rs
dereferences `vm.heap`, `vm.time` and `vm.stdout`, and the integration
tests construct the VM with `Vm::new(&arena, &mut stdout)` — so the current
vm.rs is not in the snapshot.  Spec section 4.5 defines `load_class(name)`:
return the cached class if present, otherwise read and parse the bytes,
link, cache by internal name.  `parseLink` stands for steps 2-3 (filesystem
or runtime-image read, C1 parse, C3 link) and `parses` counts how often
they ran. -/

structure VmState where
  classes : List (String × ClassC)
  parses : Nat

/-- Modelled from the spec: Vm::load_class (spec section 4.5, steps 1-3). -/
def vmLoadClass (parseLink : String → Except Err ClassC) (st : VmState)
    (name : String) : Except Err (ClassC × VmState) :=
  match alFind st.classes name with
  | some c => .ok (c, st)
  | none => do
    let c ← parseLink name
    .ok (c, ⟨alInsert st.classes name c, st.parses + 1⟩)

/-! ## Concrete inputs used by the verification -/

/-- A caller class whose constant-pool entry 1 is a method ref to its own
static method sub(II)I (claim about invokestatic argument order). -/
def c1MainClass : ClassC :=
  ⟨"Main", 2,
    [.methodRef 2 3, .classRef 4, .nameAndType 5 6,
      .utf8 "Main", .utf8 "sub", .utf8 "(II)I"],
    none,
    [(("sub", "(II)I"),
      ⟨⟨[.base .int, .base .int], some (.base .int)⟩,
        MethodAccessFlags.STATIC, some ⟨2, 2, [.retOp .int]⟩⟩)],
    [], []⟩

/-- A class whose constant-pool entry 1 is a method ref to its own instance
method m(I)V (contrast case: invokespecial argument order). -/
def c1SpecClass : ClassC :=
  ⟨"A", 2,
    [.methodRef 2 3, .classRef 4, .nameAndType 5 6,
      .utf8 "A", .utf8 "m", .utf8 "(I)V"],
    none,
    [(("m", "(I)V"), ⟨⟨[.base .int], none⟩, 0, some ⟨2, 1, [.retOp .void]⟩⟩)],
    [], []⟩

def animalSound : MethodC :=
  ⟨⟨[], some (.base (.object "java/lang/String"))⟩, 1,
    some ⟨1, 1, [.ldc 1, .retOp .reference]⟩⟩

def dogSound : MethodC :=
  ⟨⟨[], some (.base (.object "java/lang/String"))⟩, 1,
    some ⟨1, 1, [.ldc 2, .retOp .reference]⟩⟩

def animalClass : ClassC :=
  ⟨"Animal", 1, [], none, [(("sound", "()Ljava/lang/String;"), animalSound)], [], []⟩

/-- Dog extends Animal (class-table index 0) and overrides sound. -/
def dogClass : ClassC :=
  ⟨"Dog", 1, [], some 0, [(("sound", "()Ljava/lang/String;"), dogSound)], [], []⟩

def c2Env : ClassTable := [animalClass, dogClass]

/-- One Dog instance at heap address 100. -/
def c2Heap : Heap := [(100, .object 1)]

/-- A SYNCHRONIZED method (flag 0x20) with a trivial body. -/
def syncMethod : MethodC := ⟨⟨[], none⟩, 0x20, some ⟨0, 0, [.retOp .void]⟩⟩

def c9Class : ClassC := ⟨"C", 1, [], none, [], [], []⟩

/-- Constant pool for the field-linking witness: name and descriptor
strings for a field y of type int declared by the subclass. -/
def c6Pool : List ConstantInfo := [.utf8 "x", .utf8 "I", .utf8 "y"]

/-- The bytes of a method with 32769 one-byte nop instructions followed by
an ifeq whose 16-bit offset +1 lands inside the ifeq's own operand bytes
(a legal-to-decode but meaningless target). -/
def c5Bytes : List Nat := List.replicate 32769 0 ++ [0x99, 0, 1]

/-- A parse-and-link stand-in for the VM registry witness. -/
def c9PL : String → Except Err ClassC := fun _ => .ok c9Class

/-! ## Verified properties -/

theorem except_ok_bind {ε α β : Type} (a : α) (f : α → Except ε β) :
    (Except.ok a >>= f) = f a := rfl

theorem except_error_bind {ε α β : Type} (e : ε) (f : α → Except ε β) :
    ((Except.error e : Except ε α) >>= f) = .error e := rfl

/-- C3: executing int rem on an operand stack holding Int v1 below Int v2
pops v2 (the top) first, then v1, and pushes Int(v1 % v2) with % the
two's-complement (truncated) remainder, advancing the pc by one; binary
arithmetic binds op(a, b) with b popped before a. -/
theorem irem_pops_divisor_first_and_truncates
    (v1 v2 : Int) (rest : List JvmValue) (locals : List (Option JvmValue))
    (flags : Nat) (h : v2 ≠ 0) :
    execInstr flags (.rem .int) ⟨locals, .int v2 :: .int v1 :: rest⟩ =
      .ok (.next ⟨locals, .int (Int.tmod v1 v2) :: rest⟩ 1) := by
  simp [execInstr, JvmValue.tryAsInt, h]

theorem irem_pops_divisor_first_and_truncates_witness :
    (3 : Int) ≠ 0 ∧
      execInstr 0 (.rem .int) ⟨[], [.int 3, .int 7]⟩ =
        .ok (.next ⟨[], [.int 1]⟩ 1) := by
  refine ⟨by decide, ?_⟩
  have h := irem_pops_divisor_first_and_truncates 7 3 [] [] 0 (by decide)
  simpa using h

/-- C7: int add pushes the two's-complement sum modulo 2^32 of its two
operands, is commutative modulo that wrap, and in particular
iadd(INT_MAX, 1) = INT_MIN. -/
theorem iadd_wraps_two_complement
    (a b : Int) (rest : List JvmValue) (locals : List (Option JvmValue))
    (flags : Nat) :
    execInstr flags (.add .int) ⟨locals, .int b :: .int a :: rest⟩ =
        .ok (.next ⟨locals, .int (wrapI32 (a + b)) :: rest⟩ 1) ∧
      wrapI32 (a + b) = wrapI32 (b + a) ∧
      wrapI32 ((2 ^ 31 - 1) + 1) = -(2 ^ 31) := by
  refine ⟨?_, by rw [Int.add_comm], by decide⟩
  simp [execInstr, JvmValue.tryAsInt, Int.add_comm b a]

/-- C8 (corrected): executing a method whose flags contain SYNCHRONIZED and
that has a body aborts with the todo panic "not yet implemented:
synchronized methods" before any instruction of the body runs; the failure
is a Rust panic, not an error value on the result channel. -/
theorem synchronized_method_panics
    (fuel : Nat) (m : MethodC) (s : FrameState) (body : MethodBodyC)
    (hbody : m.body = some body)
    (hsync : hasFlag m.accessFlags MethodAccessFlags.SYNCHRONIZED = true) :
    executeFrame fuel m s = panicE "not yet implemented: synchronized methods" ∧
      isEyreError (executeFrame fuel m s) = false := by
  have : executeFrame fuel m s = panicE "not yet implemented: synchronized methods" := by
    simp [executeFrame, hbody, hsync]
  exact ⟨this, by rw [this]; rfl⟩

theorem synchronized_method_panics_witness :
    syncMethod.body = some ⟨0, 0, [.retOp .void]⟩ ∧
      hasFlag syncMethod.accessFlags MethodAccessFlags.SYNCHRONIZED = true ∧
      executeFrame 10 syncMethod ⟨[], []⟩ =
        panicE "not yet implemented: synchronized methods" := by
  refine ⟨rfl, by decide, ?_⟩
  exact (synchronized_method_panics 10 syncMethod ⟨[], []⟩ _ rfl (by decide)).1

/-- C8 counterexample to the claim as stated: on a concrete SYNCHRONIZED
method the failure is the todo panic, not an Unsupported error surfaced on
the single result/error channel of call_method. -/
theorem synchronized_not_on_error_channel_cex :
    executeFrame 10 syncMethod ⟨[], []⟩ =
        .error (.rsPanic "not yet implemented: synchronized methods") ∧
      isEyreError (executeFrame 10 syncMethod ⟨[], []⟩) = false := by
  exact ⟨rfl, rfl⟩

/-- C4 (code bug): the decoder maps every array-load opcode
(iaload 0x2e .. saload 0x35) to the arraystore instruction of the matching
element type — the same decoded form the array-store opcodes
(iastore 0x4f .. sastore 0x56) produce — although the instruction set has a
distinct arrayload form; decoding iaload therefore equals decoding iastore
and never yields arrayload. -/
theorem arrayload_opcodes_decode_to_arraystore :
    decodeInstructions [0x2e] = .ok [.arraystore .int] ∧
      decodeInstructions [0x2f] = .ok [.arraystore .long] ∧
      decodeInstructions [0x30] = .ok [.arraystore .float] ∧
      decodeInstructions [0x31] = .ok [.arraystore .double] ∧
      decodeInstructions [0x32] = .ok [.arraystore .reference] ∧
      decodeInstructions [0x33] = .ok [.arraystore .byte] ∧
      decodeInstructions [0x34] = .ok [.arraystore .char] ∧
      decodeInstructions [0x35] = .ok [.arraystore .short] ∧
      decodeInstructions [0x4f] = .ok [.arraystore .int] ∧
      decodeInstructions [0x50] = .ok [.arraystore .long] ∧
      decodeInstructions [0x51] = .ok [.arraystore .float] ∧
      decodeInstructions [0x52] = .ok [.arraystore .double] ∧
      decodeInstructions [0x53] = .ok [.arraystore .reference] ∧
      decodeInstructions [0x54] = .ok [.arraystore .byte] ∧
      decodeInstructions [0x55] = .ok [.arraystore .char] ∧
      decodeInstructions [0x56] = .ok [.arraystore .short] ∧
      decodeInstructions [0x2e] = decodeInstructions [0x4f] ∧
      Instruction.arraystore .int ≠ Instruction.arrayload .int := by
  refine ⟨rfl, rfl, rfl, rfl, rfl, rfl, rfl, rfl, rfl, rfl, rfl, rfl, rfl,
    rfl, rfl, rfl, rfl, fun h => Instruction.noConfusion h⟩

/-- C1 (code bug): on an invokestatic of a two-argument method with caller
operand stack [.., Int 7, Int 3] (7 pushed first, so the declaration-order
arguments are 7 then 3), the interpreter pops the arguments one by one, so
the callee frame's locals are [3, 7] — the reverse of declaration order —
instead of the claimed in-order copy [7, 3].  The invokespecial path, by
contrast, copies the stack slice in order (receiver in local 0). -/
theorem invokestatic_reverses_argument_order :
    executeInvoke [c1MainClass] [] 0 0 [.int 3, .int 7] 1 .static =
        .ok (.frameCall 0
          ⟨⟨[.base .int, .base .int], some (.base .int)⟩,
            MethodAccessFlags.STATIC, some ⟨2, 2, [.retOp .int]⟩⟩
          [some (.int 3), some (.int 7)] []) ∧
      ([some (JvmValue.int 3), some (.int 7)] ≠
        [some (JvmValue.int 7), some (.int 3)]) ∧
      executeInvoke [c1SpecClass] [] 0 0 [.int 9, .reference 5] 1 .special =
        .ok (.frameCall 0
          ⟨⟨[.base .int], none⟩, 0, some ⟨2, 1, [.retOp .void]⟩⟩
          [some (.reference 5), some (.int 9)] []) := by
  refine ⟨rfl, by decide, rfl⟩

/-- C2: virtual dispatch of a non-PRIVATE resolved method on an object
receiver repeats the (name, descriptor) super-chain lookup starting from
the receiver's actual runtime class as read from its header; in particular
a subclass override with identical (name, descriptor) is selected when the
receiver is an instance of the subclass, regardless of the class the
resolution step found.  A PRIVATE resolved method is used directly, as for
invokespecial. -/
theorem virtual_dispatch_uses_receiver_class
    (env : ClassTable) (heap : Heap) (resolvedIdx : Nat) (resolved : MethodC)
    (name descriptor : String) (addr rc : Nat) (c : ClassC) (m : MethodC)
    (hpriv : hasFlag resolved.accessFlags MethodAccessFlags.PRIVATE = false)
    (hheap : alFind heap addr = some (.object rc)) :
    (selectVirtual env heap resolvedIdx resolved name descriptor (.reference addr) =
        lookupMethod env rc name descriptor) ∧
      (List.get? env rc = some c → c.methodLookup name descriptor = some m →
        selectVirtual env heap resolvedIdx resolved name descriptor
            (.reference addr) = .ok (rc, m)) ∧
      (∀ resolved' : MethodC,
        hasFlag resolved'.accessFlags MethodAccessFlags.PRIVATE = true →
        ∀ receiver : JvmValue,
          selectVirtual env heap resolvedIdx resolved' name descriptor receiver =
            .ok (resolvedIdx, resolved')) := by
  refine ⟨?_, ?_, ?_⟩
  · simp [selectVirtual, hpriv, hheap]
  · intro hc hm
    rw [List.get?_eq_getElem?] at hc
    simp [selectVirtual, hpriv, hheap, lookupMethod, findMethodChain, classGet,
      hc, hm, except_ok_bind]
  · intro resolved' hp receiver
    simp [selectVirtual, hp]

theorem virtual_dispatch_uses_receiver_class_witness :
    hasFlag animalSound.accessFlags MethodAccessFlags.PRIVATE = false ∧
      alFind c2Heap 100 = some (.object 1) ∧
      List.get? c2Env 1 = some dogClass ∧
      dogClass.methodLookup "sound" "()Ljava/lang/String;" = some dogSound ∧
      selectVirtual c2Env c2Heap 0 animalSound "sound" "()Ljava/lang/String;"
          (.reference 100) = .ok (1, dogSound) := by
  refine ⟨by decide, rfl, rfl, rfl, ?_⟩
  exact (virtual_dispatch_uses_receiver_class c2Env c2Heap 0 animalSound
    "sound" "()Ljava/lang/String;" 100 1 dogClass dogSound (by decide) rfl).2.1 rfl rfl

theorem except_map_ok {ε α β : Type} (f : α → β) (e : Except ε α) (y : β) :
    Except.map f e = .ok y ↔ ∃ x, e = .ok x ∧ f x = y := by
  cases e <;> simp [Except.map]

theorem wrapSigned_eq_self (w : Nat) (x : Int) (hw : 1 ≤ w)
    (h1 : -(2 ^ (w - 1) : Int) ≤ x) (h2 : x < 2 ^ (w - 1)) :
    wrapSigned w x = x := by
  unfold wrapSigned
  have hpow : (2 : Int) ^ w = 2 ^ (w - 1) * 2 := by
    conv_lhs => rw [show w = (w - 1) + 1 by omega]
    rw [pow_succ]
  have h0 : (0 : Int) ≤ x + 2 ^ (w - 1) := by linarith
  have hlt : x + 2 ^ (w - 1) < 2 ^ w := by rw [hpow]; linarith
  rw [Int.emod_eq_of_lt h0 hlt]
  ring

theorem indexMapGet_lt (im : List (Nat × Nat)) (t N : Nat)
    (him : ∀ p ∈ im, p.2 < N) (hN : 0 < N) : indexMapGet im t < N := by
  unfold indexMapGet
  cases hf : im.find? (fun p => p.1 = t) with
  | none => simpa using hN
  | some p => exact him p (List.mem_of_find?_eq_some hf)

theorem addressToIndex_bound (len : Nat) (am : List Nat) (im : List (Nat × Nat))
    (i N w : Nat) (b x : Int)
    (him : ∀ p ∈ im, p.2 < N) (hiN : i < N) (hN : N ≤ 32768) (hw : 16 ≤ w)
    (hx : addressToIndex len am im i w b = .ok x) :
    0 ≤ (i : Int) + x ∧ (i : Int) + x < (N : Int) := by
  unfold addressToIndex at hx
  cases ha : am.get? i with
  | none => rw [ha] at hx; exact absurd hx (by simp [panicE])
  | some a =>
    rw [ha] at hx
    dsimp only at hx
    by_cases ht : ((a : Int) + b) < 0
    · rw [if_pos ht] at hx; exact absurd hx (by simp [panicE])
    · rw [if_neg ht] at hx
      by_cases hlen : len ≤ ((a : Int) + b).toNat
      · rw [if_pos hlen] at hx; exact absurd hx (by simp [panicE])
      · rw [if_neg hlen] at hx
        cases hx
        set v := indexMapGet im ((a : Int) + b).toNat with hv
        have hvN : v < N := indexMapGet_lt im _ N him (Nat.pos_of_ne_zero (by omega))
        have hpow : (32768 : Int) ≤ 2 ^ (w - 1) := by
          calc (32768 : Int) = 2 ^ 15 := by norm_num
          _ ≤ 2 ^ (w - 1) := by
            apply pow_le_pow_right₀ (by norm_num)
            omega
        have hid : wrapSigned w ((v : Int) - (i : Int)) = (v : Int) - (i : Int) := by
          apply wrapSigned_eq_self w _ (by omega)
          · have : (i : Int) < 32768 := by exact_mod_cast Nat.lt_of_lt_of_le hiN hN
            have hv0 : (0 : Int) ≤ (v : Int) := Int.natCast_nonneg v
            linarith
          · have : (v : Int) < 32768 := by exact_mod_cast Nat.lt_of_lt_of_le hvN hN
            have hi0 : (0 : Int) ≤ (i : Int) := Int.natCast_nonneg i
            linarith
        rw [hid]
        have : (v : Int) < (N : Int) := by exact_mod_cast hvN
        constructor <;> linarith [Int.natCast_nonneg v]

theorem rewriteBranch_bound (len : Nat) (am : List Nat) (im : List (Nat × Nat))
    (i N : Nat) (ins ins' : Instruction) (d : Int)
    (him : ∀ p ∈ im, p.2 < N) (hiN : i < N) (hN : N ≤ 32768)
    (h : rewriteBranch len am im i ins = .ok ins')
    (hb : ins'.branchOffset = some d) :
    0 ≤ (i : Int) + d ∧ (i : Int) + d < (N : Int) := by
  cases ins
  case ifCond cond b =>
    simp only [rewriteBranch] at h
    rw [except_map_ok] at h
    obtain ⟨x, hx, hctor⟩ := h
    subst hctor
    simp only [Instruction.branchOffset, Option.some.injEq] at hb
    exact hb ▸ addressToIndex_bound len am im i N 16 b x him hiN hN (by norm_num) hx
  case ifIcmp cond b =>
    simp only [rewriteBranch] at h
    rw [except_map_ok] at h
    obtain ⟨x, hx, hctor⟩ := h
    subst hctor
    simp only [Instruction.branchOffset, Option.some.injEq] at hb
    exact hb ▸ addressToIndex_bound len am im i N 16 b x him hiN hN (by norm_num) hx
  case ifAcmp cond b =>
    simp only [rewriteBranch] at h
    rw [except_map_ok] at h
    obtain ⟨x, hx, hctor⟩ := h
    subst hctor
    simp only [Instruction.branchOffset, Option.some.injEq] at hb
    exact hb ▸ addressToIndex_bound len am im i N 16 b x him hiN hN (by norm_num) hx
  case goto b =>
    simp only [rewriteBranch] at h
    rw [except_map_ok] at h
    obtain ⟨x, hx, hctor⟩ := h
    subst hctor
    simp only [Instruction.branchOffset, Option.some.injEq] at hb
    exact hb ▸ addressToIndex_bound len am im i N 32 b x him hiN hN (by norm_num) hx
  case jsr b =>
    simp only [rewriteBranch] at h
    rw [except_map_ok] at h
    obtain ⟨x, hx, hctor⟩ := h
    subst hctor
    simp only [Instruction.branchOffset, Option.some.injEq] at hb
    exact hb ▸ addressToIndex_bound len am im i N 32 b x him hiN hN (by norm_num) hx
  case ifnull b =>
    simp only [rewriteBranch] at h
    rw [except_map_ok] at h
    obtain ⟨x, hx, hctor⟩ := h
    subst hctor
    simp only [Instruction.branchOffset, Option.some.injEq] at hb
    exact hb ▸ addressToIndex_bound len am im i N 16 b x him hiN hN (by norm_num) hx
  case ifnonnull b =>
    simp only [rewriteBranch] at h
    rw [except_map_ok] at h
    obtain ⟨x, hx, hctor⟩ := h
    subst hctor
    simp only [Instruction.branchOffset, Option.some.injEq] at hb
    exact hb ▸ addressToIndex_bound len am im i N 16 b x him hiN hN (by norm_num) hx
  all_goals
    simp only [rewriteBranch] at h
  all_goals
    cases h
  all_goals
    simp [Instruction.branchOffset] at hb

theorem decodeLoop_idx_bound :
    ∀ (fuel : Nat) (c : Cursor) (instrs : List Instruction) (am : List Nat)
      (im : List (Nat × Nat)) (i : Nat) (outI : List Instruction)
      (outA : List Nat) (outM : List (Nat × Nat)),
      decodeLoop fuel c instrs am im i = .ok (outI, outA, outM) →
      instrs.length = i → (∀ p ∈ im, p.2 < i) →
      ∀ p ∈ outM, p.2 < outI.length := by
  intro fuel
  induction fuel with
  | zero =>
    intro c instrs am im i outI outA outM h _ _
    exact absurd h (by simp [decodeLoop, bailE])
  | succ n ih =>
    intro c instrs am im i outI outA outM h hlen him
    simp only [decodeLoop] at h
    cases hr : c.readU8 with
    | none =>
      rw [hr] at h
      cases h
      intro p hp
      simpa [hlen] using him p hp
    | some bc =>
      obtain ⟨b, c1⟩ := bc
      rw [hr] at h
      dsimp only at h
      cases hop : decodeOp b c1 with
      | error e => rw [hop] at h; exact absurd h (by simp)
      | ok insc =>
        obtain ⟨ins0, c2⟩ := insc
        rw [hop] at h
        dsimp only at h
        refine ih c2 (ins0 :: instrs) ((c1.pos - 1) :: am) ((c1.pos - 1, i) :: im)
          (i + 1) outI outA outM h (by simp [hlen]) ?_
        intro p hp
        rcases List.mem_cons.mp hp with hp | hp
        · subst hp; omega
        · exact Nat.lt_succ_of_lt (him p hp)

theorem rewriteGo_spec (len : Nat) (am : List Nat) (im : List (Nat × Nat)) :
    ∀ (l : List Instruction) (i : Nat) (acc : List Instruction)
      (out : List Instruction),
      rewriteGo len am im i acc l = .ok out →
      ∃ tl, out = acc.reverse ++ tl ∧ tl.length = l.length ∧
        ∀ j ins, l.get? j = some ins →
          ∃ ins', rewriteBranch len am im (i + j) ins = .ok ins' ∧
            tl.get? j = some ins' := by
  intro l
  induction l with
  | nil =>
    intro i acc out h
    simp only [rewriteGo] at h
    cases h
    exact ⟨[], by simp, rfl, by intro j ins hj; simp at hj⟩
  | cons ins0 tl0 ih =>
    intro i acc out h
    simp only [rewriteGo] at h
    cases hr : rewriteBranch len am im i ins0 with
    | error e => rw [hr] at h; exact absurd h (by simp)
    | ok ins0' =>
      rw [hr] at h
      obtain ⟨tl, htl, hlen, hidx⟩ := ih (i + 1) (ins0' :: acc) out h
      refine ⟨ins0' :: tl, ?_, by simp [hlen], ?_⟩
      · rw [htl]; simp
      · intro j ins hj
        cases j with
        | zero =>
          simp only [List.get?] at hj
          cases hj
          exact ⟨ins0', by simpa using hr, rfl⟩
        | succ j' =>
          simp only [List.get?] at hj
          obtain ⟨ins', hr', hg⟩ := hidx j' ins hj
          refine ⟨ins', ?_, by simpa using hg⟩
          have : i + 1 + j' = i + (j' + 1) := by omega
          rwa [this] at hr'

/-- C5 (corrected): for every byte array the decoder accepts, provided the
method decodes to at most 32768 instructions (so the i16 cast of the
rewrite cannot truncate the index difference), every decoded branch
instruction at index i carries an offset d with i + d a valid index into
the decoded instruction vector: no such branch points outside
[0, instructions.len()). -/
theorem decoded_branch_offsets_in_bounds
    (bytes : List Nat) (instrs : List Instruction)
    (h : decodeInstructions bytes = .ok instrs)
    (hsmall : instrs.length ≤ 32768) :
    ∀ (i : Nat) (ins : Instruction) (d : Int),
      instrs.get? i = some ins → ins.branchOffset = some d →
      0 ≤ (i : Int) + d ∧ (i : Int) + d < (instrs.length : Int) := by
  intro i ins d hget hb
  unfold decodeInstructions at h
  cases hl : decodeLoop (bytes.length + 1) (Cursor.new bytes) [] [] [] 0 with
  | error e => rw [hl] at h; exact absurd h (by simp [except_error_bind])
  | ok res =>
    obtain ⟨preI, am, im⟩ := res
    rw [hl, except_ok_bind] at h
    have hinv := decodeLoop_idx_bound _ _ _ _ _ _ _ _ _ hl rfl (by simp)
    obtain ⟨tl, htl, hlen, hidx⟩ := rewriteGo_spec bytes.length am im preI 0 [] instrs h
    have htl' : instrs = tl := by simpa using htl
    subst htl'
    have hN : preI.length = instrs.length := hlen.symm
    have hi : i < instrs.length := by
      have := List.get?_eq_some.mp hget
      exact this.1
    have hipre : i < preI.length := hN ▸ hi
    cases hpre : preI.get? i with
    | none =>
      rw [List.get?_eq_none] at hpre
      omega
    | some ins0 =>
      obtain ⟨ins', hrw, hget'⟩ := hidx i ins0 hpre
      rw [hget] at hget'
      cases hget'
      have him : ∀ p ∈ im, p.2 < instrs.length := by
        intro p hp
        exact hN ▸ hinv p hp
      exact rewriteBranch_bound bytes.length am im i instrs.length ins0 ins d
        him hi hsmall (by simpa using hrw) hb

theorem decoded_branch_offsets_in_bounds_witness :
    decodeInstructions [0x99, 0, 1] = .ok [.ifCond .eq 0] ∧
      ([Instruction.ifCond .eq 0] : List Instruction).length ≤ 32768 ∧
      (0 : Int) ≤ (0 : Int) + 0 ∧
      ((0 : Int) + 0 < (([Instruction.ifCond .eq 0] : List Instruction).length : Int)) := by
  have hdec : decodeInstructions [0x99, 0, 1] = .ok [.ifCond .eq 0] := rfl
  have H := decoded_branch_offsets_in_bounds [0x99, 0, 1] [.ifCond .eq 0] hdec
    (by simp) 0 (.ifCond .eq 0) 0 rfl rfl
  exact ⟨hdec, by simp, H.1, H.2⟩

theorem decodeLoop_nops (bytes : List Nat) :
    ∀ (n fuel p : Nat) (rest : List Nat) (instrs : List Instruction)
      (am : List Nat) (im : List (Nat × Nat)) (i : Nat),
      decodeLoop (n + fuel) ⟨bytes, p, List.replicate n 0 ++ rest⟩ instrs am im i =
        decodeLoop fuel ⟨bytes, p + n, rest⟩
          (List.replicate n .nop ++ instrs)
          ((List.range' p n).reverse ++ am)
          (((List.range' p n).zip (List.range' i n)).reverse ++ im)
          (i + n) := by
  intro n
  induction n with
  | zero =>
    intro fuel p rest instrs am im i
    simp [List.range']
  | succ n ih =>
    intro fuel p rest instrs am im i
    have hc : (⟨bytes, p, List.replicate (n + 1) 0 ++ rest⟩ : Cursor).readU8 =
        some (0, ⟨bytes, p + 1, List.replicate n 0 ++ rest⟩) := by
      simp [Cursor.readU8, List.replicate_succ]
    have hop : decodeOp 0 (⟨bytes, p + 1, List.replicate n 0 ++ rest⟩ : Cursor) =
        .ok (.nop, ⟨bytes, p + 1, List.replicate n 0 ++ rest⟩) := rfl
    rw [show n + 1 + fuel = (n + fuel) + 1 by omega, decodeLoop, hc]
    dsimp only
    rw [hop]
    dsimp only
    rw [show p + 1 - 1 = p by omega]
    rw [ih fuel (p + 1) rest (.nop :: instrs) (p :: am) ((p, i) :: im) (i + 1)]
    have ha : p + 1 + n = p + (n + 1) := by omega
    have he : i + 1 + n = i + (n + 1) := by omega
    have hb2 : List.replicate n Instruction.nop ++ (Instruction.nop :: instrs) =
        List.replicate (n + 1) Instruction.nop ++ instrs := by
      rw [List.replicate_succ']
      simp
    have hc2 : (List.range' (p + 1) n).reverse ++ (p :: am) =
        (List.range' p (n + 1)).reverse ++ am := by
      rw [List.range'_succ]
      simp
    have hd2 : ((List.range' (p + 1) n).zip (List.range' (i + 1) n)).reverse ++
          ((p, i) :: im) =
        ((List.range' p (n + 1)).zip (List.range' i (n + 1))).reverse ++ im := by
      rw [List.range'_succ, List.range'_succ, List.zip_cons_cons]
      simp
    rw [ha, he, hb2, hc2, hd2]

theorem rewriteGo_nops (len : Nat) (am : List Nat) (im : List (Nat × Nat)) :
    ∀ (n i : Nat) (acc l : List Instruction),
      rewriteGo len am im i acc (List.replicate n .nop ++ l) =
        rewriteGo len am im (i + n) (List.replicate n .nop ++ acc) l := by
  intro n
  induction n with
  | zero => intro i acc l; simp
  | succ n ih =>
    intro i acc l
    have hr : rewriteBranch len am im i Instruction.nop = .ok .nop := rfl
    conv_lhs => rw [List.replicate_succ]
    rw [List.cons_append, rewriteGo, hr]
    dsimp only
    rw [ih (i + 1) (.nop :: acc) l]
    have hb2 : List.replicate n Instruction.nop ++ (Instruction.nop :: acc) =
        List.replicate (n + 1) Instruction.nop ++ acc := by
      rw [List.replicate_succ']
      simp
    rw [show i + 1 + n = i + (n + 1) by omega, hb2]

theorem indexMapGet_of_find?_none (l : List (Nat × Nat)) (t : Nat)
    (h : l.find? (fun p => p.1 = t) = none) : indexMapGet l t = 0 := by
  simp only [indexMapGet]
  rw [h]

theorem addressToIndex_eval (len : Nat) (am : List Nat) (im : List (Nat × Nat))
    (i w : Nat) (b : Int) (a : Nat)
    (hget : am.get? i = some a)
    (h1 : ¬((a : Int) + b < 0))
    (h2 : ¬(len ≤ ((a : Int) + b).toNat)) :
    addressToIndex len am im i w b =
      .ok (wrapSigned w
        ((indexMapGet im ((a : Int) + b).toNat : Int) - (i : Int))) := by
  unfold addressToIndex
  rw [hget]
  dsimp only
  rw [if_neg h1, if_neg h2]

theorem c5_indexMapGet_miss :
    indexMapGet ((32769, 32769) ::
        ((List.range' 0 32769).zip (List.range' 0 32769)).reverse) 32770 = 0 := by
  refine indexMapGet_of_find?_none _ _ ?_
  rw [List.find?_eq_none]
  intro p hp
  rcases List.mem_cons.mp hp with h | h
  · subst h; decide
  · obtain ⟨a, b⟩ := p
    have hz := List.mem_reverse.mp h
    have ha := (List.of_mem_zip hz).1
    have := List.mem_range'_1.mp ha
    simp only [decide_eq_true_eq]
    omega

theorem c5_rewriteBranch_eval :
    rewriteBranch 32772 (List.range' 0 32770)
        ((32769, 32769) :: ((List.range' 0 32769).zip (List.range' 0 32769)).reverse)
        32769 (.ifCond .eq 1) = .ok (.ifCond .eq 32767) := by
  have hget : (List.range' 0 32770).get? 32769 = some 32769 := by
    rw [List.get?_eq_getElem?, List.getElem?_range' 0 1 (by norm_num)]
  have haddr := addressToIndex_eval 32772 (List.range' 0 32770)
    ((32769, 32769) :: ((List.range' 0 32769).zip (List.range' 0 32769)).reverse)
    32769 16 1 32769 hget (by norm_num) (by norm_num)
  rw [show ((32769 : Nat) : Int) + 1 = 32770 from by norm_num] at haddr
  rw [show ((32770 : Int)).toNat = 32770 from rfl] at haddr
  rw [c5_indexMapGet_miss] at haddr
  simp only [rewriteBranch]
  rw [haddr]
  simp only [Except.map]
  norm_num [wrapSigned]

theorem c5_decode_eval :
    decodeInstructions c5Bytes =
      .ok (List.replicate 32769 Instruction.nop ++ [.ifCond .eq 32767]) := by
  unfold decodeInstructions
  have hlen : c5Bytes.length = 32772 := by
    rw [show c5Bytes = List.replicate 32769 0 ++ [0x99, 0, 1] from rfl,
      List.length_append, List.length_replicate,
      show ([0x99, 0, 1] : List Nat).length = 3 from rfl]
  rw [hlen]
  have hcur : Cursor.new c5Bytes =
      ⟨c5Bytes, 0, List.replicate 32769 0 ++ [0x99, 0, 1]⟩ := rfl
  rw [hcur]
  rw [show (32772 + 1 : Nat) = 32769 + 4 by norm_num]
  rw [decodeLoop_nops c5Bytes 32769 4 0 [0x99, 0, 1] [] [] [] 0]
  simp only [List.append_nil, Nat.zero_add]
  rw [show (4 : Nat) = 3 + 1 from rfl, decodeLoop]
  have hr1 : (⟨c5Bytes, 32769, [0x99, 0, 1]⟩ : Cursor).readU8 =
      some (0x99, ⟨c5Bytes, 32769 + 1, [0, 1]⟩) := rfl
  rw [hr1]
  dsimp only
  have hop : decodeOp 0x99 (⟨c5Bytes, 32769 + 1, [0, 1]⟩ : Cursor) =
      .ok (.ifCond .eq 1, ⟨c5Bytes, 32772, []⟩) := rfl
  rw [hop]
  dsimp only
  rw [show (32769 + 1 - 1 : Nat) = 32769 by norm_num]
  rw [show (3 : Nat) = 2 + 1 from rfl, decodeLoop]
  have hr2 : (⟨c5Bytes, 32772, []⟩ : Cursor).readU8 = none := rfl
  rw [hr2]
  dsimp only
  rw [except_ok_bind]
  have hrev1 : (Instruction.ifCond .eq 1 :: List.replicate 32769 .nop).reverse =
      List.replicate 32769 Instruction.nop ++ [.ifCond .eq 1] := by
    rw [List.reverse_cons, List.reverse_replicate]
  have hrev2 : ((32769 : Nat) :: (List.range' 0 32769).reverse).reverse =
      List.range' 0 32770 := by
    rw [List.reverse_cons, List.reverse_reverse]
    have h1 : List.range' 0 32769 ++ List.range' (0 + 32769) 1 =
        List.range' 0 (1 + 32769) := List.range'_append_1 0 32769 1
    simp only [Nat.zero_add] at h1
    rw [show List.range' 32769 1 = [32769] from rfl] at h1
    rw [h1]
  rw [hrev1, hrev2]
  rw [rewriteGo_nops 32772 (List.range' 0 32770) _ 32769 0 [] [.ifCond .eq 1]]
  simp only [List.append_nil, Nat.zero_add]
  rw [rewriteGo, c5_rewriteBranch_eval]
  dsimp only
  rw [rewriteGo]
  rw [List.reverse_cons, List.reverse_replicate]

/-- C5 counterexample to the claim as stated: the byte array `c5Bytes`
decodes successfully to 32770 instructions whose branch at index 32769
carries the truncated offset 32767 (the true index difference is -32769,
wrapped by the `as i16` cast), and 32769 + 32767 = 65536 is not a valid
index into the decoded vector. -/
theorem branch_rewrite_escapes_bounds_cex :
    decodeInstructions c5Bytes =
        .ok (List.replicate 32769 Instruction.nop ++ [Instruction.ifCond Condition.eq 32767]) ∧
      (List.replicate 32769 Instruction.nop ++ [Instruction.ifCond Condition.eq 32767]).get? 32769 =
        some (Instruction.ifCond Condition.eq 32767) ∧
      (Instruction.ifCond Condition.eq 32767).branchOffset = some 32767 ∧
      (List.replicate 32769 Instruction.nop ++ [Instruction.ifCond Condition.eq 32767]).length = 32770 ∧
      ¬((32769 : Int) + 32767 <
        ((List.replicate 32769 Instruction.nop ++ [Instruction.ifCond Condition.eq 32767]).length : Int)) := by
  have hlenp : (List.replicate 32769 Instruction.nop ++ [Instruction.ifCond Condition.eq 32767]).length =
      32770 := by
    rw [List.length_append, List.length_replicate,
      show ([Instruction.ifCond .eq 32767] : List Instruction).length = 1 from rfl]
  refine ⟨c5_decode_eval, ?_, rfl, hlenp, ?_⟩
  · rw [List.get?_eq_getElem?]
    rw [List.getElem?_append_right (by rw [List.length_replicate])]
    rw [List.length_replicate]
    rfl
  · rw [hlenp]
    decide

theorem except_bind_ok_iff {ε α β : Type} (e : Except ε α) (f : α → Except ε β) (y : β) :
    (e >>= f) = .ok y ↔ ∃ x, e = .ok x ∧ f x = .ok y := by
  cases e with
  | error a => simp [show ((Except.error a : Except ε α) >>= f) = .error a from rfl]
  | ok a => simp [except_ok_bind]

set_option maxHeartbeats 4000000 in
theorem decodeOpcode_not_ifnonnull (op : OpCode) (c c2 : Cursor) (ins : Instruction)
    (h : decodeOpcode op c = .ok (ins, c2)) : ins.isIfnonnull = false := by
  cases op
  all_goals simp only [decodeOpcode] at h
  all_goals try (cases h; rfl)
  all_goals try (simp only [bailE, panicE] at h)
  all_goals try (rw [except_map_ok] at h; obtain ⟨⟨v, cv⟩, _, hfx⟩ := h; cases hfx; rfl)
  all_goals try (rw [except_bind_ok_iff] at h; obtain ⟨⟨a1, d1⟩, _, h⟩ := h; dsimp only at h)
  all_goals try (rw [except_bind_ok_iff] at h; obtain ⟨⟨a2, d2⟩, _, h⟩ := h; dsimp only at h)
  all_goals try (rw [except_bind_ok_iff] at h; obtain ⟨⟨a3, d3⟩, _, h⟩ := h; dsimp only at h)
  all_goals try (cases h; rfl)
  all_goals try (split at h)
  all_goals try (rw [except_bind_ok_iff] at h; obtain ⟨⟨a4, d4⟩, _, h⟩ := h; dsimp only at h)
  all_goals try (split at h)
  all_goals try (exact Except.noConfusion h)
  all_goals try (cases h; rfl)

theorem decodeOp_not_ifnonnull (b : Nat) (c c2 : Cursor) (ins : Instruction)
    (h : decodeOp b c = .ok (ins, c2)) : ins.isIfnonnull = false := by
  unfold decodeOp at h
  cases hf : OpCode.fromRepr b with
  | none => rw [hf] at h; exact absurd h (by simp [bailE])
  | some op =>
    rw [hf] at h
    exact decodeOpcode_not_ifnonnull op c c2 ins h

theorem decodeLoop_not_ifnonnull :
    ∀ (fuel : Nat) (c : Cursor) (instrs : List Instruction) (am : List Nat)
      (im : List (Nat × Nat)) (i : Nat) (outI : List Instruction)
      (outA : List Nat) (outM : List (Nat × Nat)),
      decodeLoop fuel c instrs am im i = .ok (outI, outA, outM) →
      (∀ ins ∈ instrs, ins.isIfnonnull = false) →
      ∀ ins ∈ outI, ins.isIfnonnull = false := by
  intro fuel
  induction fuel with
  | zero =>
    intro c instrs am im i outI outA outM h _
    exact absurd h (by simp [decodeLoop, bailE])
  | succ n ih =>
    intro c instrs am im i outI outA outM h hacc
    simp only [decodeLoop] at h
    cases hr : c.readU8 with
    | none =>
      rw [hr] at h
      cases h
      intro ins hins
      exact hacc ins (List.mem_reverse.mp hins)
    | some bc =>
      obtain ⟨b, c1⟩ := bc
      rw [hr] at h
      dsimp only at h
      cases hop : decodeOp b c1 with
      | error e => rw [hop] at h; exact absurd h (by simp)
      | ok insc =>
        obtain ⟨ins0, c2⟩ := insc
        rw [hop] at h
        dsimp only at h
        refine ih c2 (ins0 :: instrs) ((c1.pos - 1) :: am) ((c1.pos - 1, i) :: im)
          (i + 1) outI outA outM h ?_
        intro ins hins
        rcases List.mem_cons.mp hins with hins | hins
        · rw [hins]; exact decodeOp_not_ifnonnull b c1 c2 ins0 hop
        · exact hacc ins hins

theorem rewriteBranch_preserves_not_ifnonnull
    (len : Nat) (am : List Nat) (im : List (Nat × Nat)) (i : Nat)
    (ins ins' : Instruction)
    (h : rewriteBranch len am im i ins = .ok ins')
    (hni : ins.isIfnonnull = false) : ins'.isIfnonnull = false := by
  cases ins
  all_goals simp only [rewriteBranch] at h
  all_goals try (cases h; assumption)
  all_goals
    rw [except_map_ok] at h
    obtain ⟨x, _, hctor⟩ := h
    subst hctor
  all_goals try rfl
  exact hni

theorem rewriteGo_preserves_not_ifnonnull (len : Nat) (am : List Nat)
    (im : List (Nat × Nat)) :
    ∀ (l : List Instruction) (i : Nat) (acc out : List Instruction),
      rewriteGo len am im i acc l = .ok out →
      (∀ ins ∈ acc, ins.isIfnonnull = false) →
      (∀ ins ∈ l, ins.isIfnonnull = false) →
      ∀ ins ∈ out, ins.isIfnonnull = false := by
  intro l
  induction l with
  | nil =>
    intro i acc out h hacc _
    simp only [rewriteGo] at h
    cases h
    intro ins hins
    exact hacc ins (List.mem_reverse.mp hins)
  | cons ins0 tl0 ih =>
    intro i acc out h hacc hl
    simp only [rewriteGo] at h
    cases hr : rewriteBranch len am im i ins0 with
    | error e => rw [hr] at h; exact absurd h (by simp)
    | ok ins0' =>
      rw [hr] at h
      refine ih (i + 1) (ins0' :: acc) out h ?_ ?_
      · intro ins hins
        rcases List.mem_cons.mp hins with hins | hins
        · rw [hins]
          exact rewriteBranch_preserves_not_ifnonnull len am im i ins0 ins0' hr
            (hl ins0 (List.mem_cons_self ins0 tl0))
        · exact hacc ins hins
      · intro ins hins
        exact hl ins (List.mem_cons_of_mem ins0 hins)

/-- C10: the decoder's ifnonnull constructor returns an ifnull instruction
with the same branch operand, so decoding the ifnonnull opcode (0xC7)
produces exactly what decoding the ifnull opcode (0xC6) produces on the
same operand bytes, and a decoded instruction vector never contains the
ifnonnull variant. -/
theorem ifnonnull_decodes_as_ifnull :
    (∀ b : Int, Instruction.mkIfnonnull b = .ifnull b) ∧
      (∀ hb lb : Nat,
        decodeInstructions [0xc7, hb, lb] = decodeInstructions [0xc6, hb, lb]) ∧
      (∀ (bytes : List Nat) (instrs : List Instruction),
        decodeInstructions bytes = .ok instrs →
        ∀ ins ∈ instrs, ins.isIfnonnull = false) := by
  refine ⟨fun b => rfl, fun hb lb => rfl, ?_⟩
  intro bytes instrs h
  unfold decodeInstructions at h
  cases hl : decodeLoop (bytes.length + 1) (Cursor.new bytes) [] [] [] 0 with
  | error e => rw [hl] at h; exact absurd h (by simp [except_error_bind])
  | ok res =>
    obtain ⟨preI, am, im⟩ := res
    rw [hl, except_ok_bind] at h
    have hpre := decodeLoop_not_ifnonnull _ _ _ _ _ _ _ _ _ hl (by intro ins hh; simp at hh)
    exact rewriteGo_preserves_not_ifnonnull bytes.length am im preI 0 [] instrs h
      (by intro ins hh; simp at hh) hpre

theorem ifnonnull_decodes_as_ifnull_witness :
    Instruction.mkIfnonnull 7 = .ifnull 7 ∧
      decodeInstructions [0xc7, 0, 1] = decodeInstructions [0xc6, 0, 1] ∧
      decodeInstructions [0xc7, 0, 1] = .ok [.ifnull 0] ∧
      (Instruction.ifnull 0).isIfnonnull = false := by
  refine ⟨ifnonnull_decodes_as_ifnull.1 7, ifnonnull_decodes_as_ifnull.2.1 0 1, rfl, ?_⟩
  exact ifnonnull_decodes_as_ifnull.2.2 [0xc7, 0, 1] [.ifnull 0] rfl (.ifnull 0)
    (List.mem_singleton_self _)

theorem alFind_alInsert_self {κ ν : Type} [DecidableEq κ]
    (l : List (κ × ν)) (k : κ) (v : ν) : alFind (alInsert l k v) k = some v := by
  induction l with
  | nil => simp [alInsert, alFind]
  | cons p tl ih =>
    by_cases h : p.1 = k
    · simp [alInsert, alFind, h]
    · simp [alInsert, alFind, h, ih]

theorem alFind_alInsert_ne {κ ν : Type} [DecidableEq κ]
    (l : List (κ × ν)) (k' k : κ) (v : ν) (h : k' ≠ k) :
    alFind (alInsert l k' v) k = alFind l k := by
  induction l with
  | nil => simp [alInsert, alFind, h]
  | cons p tl ih =>
    by_cases hp : p.1 = k'
    · simp [alInsert, alFind, hp, h]
    · simp [alInsert, alFind, hp, ih]

theorem linkFieldsGo_stable
    (cp : List ConstantInfo) (k : String × String) (v : Nat) :
    ∀ (raws : List FieldInfoM) (fs : List FieldC)
      (os : List ((String × String) × Nat)) (fl : List FieldC)
      (ol : List ((String × String) × Nat)),
      alFind os k = some v →
      (∀ f ∈ raws, hasFlag f.accessFlags FieldAccessFlags.STATIC = false →
        ∀ n d, cpUtf8Unwrap cp f.nameIndex = .ok n →
          cpUtf8Unwrap cp f.descriptorIndex = .ok d → (n, d) ≠ k) →
      linkFieldsGo cp raws fs os = .ok (fl, ol) →
      alFind ol k = some v := by
  intro raws
  induction raws with
  | nil =>
    intro fs os fl ol hos _ hlink
    simp only [linkFieldsGo] at hlink
    cases hlink
    exact hos
  | cons f rest ih =>
    intro fs os fl ol hos hnd hlink
    simp only [linkFieldsGo] at hlink
    by_cases hst : hasFlag f.accessFlags FieldAccessFlags.STATIC = true
    · rw [if_pos hst] at hlink
      exact ih fs os fl ol hos (fun g hg => hnd g (List.mem_cons_of_mem f hg)) hlink
    · rw [if_neg hst] at hlink
      cases hn : cpUtf8Unwrap cp f.nameIndex with
      | error e => rw [hn] at hlink; exact absurd hlink (by simp [except_error_bind])
      | ok n =>
        rw [hn, except_ok_bind] at hlink
        cases hd : cpUtf8Unwrap cp f.descriptorIndex with
        | error e => rw [hd] at hlink; exact absurd hlink (by simp [except_error_bind])
        | ok d =>
          rw [hd, except_ok_bind] at hlink
          cases hp : parseFieldDescriptor d with
          | error e => rw [hp] at hlink; exact absurd hlink (by simp [except_error_bind])
          | ok fd =>
            rw [hp, except_ok_bind] at hlink
            have hne : (n, d) ≠ k :=
              hnd f (List.mem_cons_self f rest) (Bool.eq_false_iff.mpr hst) n d hn hd
            have hos' : alFind (alInsert os (n, d) os.length) k = some v := by
              rw [alFind_alInsert_ne os (n, d) k os.length hne]; exact hos
            exact ih _ _ fl ol hos' (fun g hg => hnd g (List.mem_cons_of_mem f hg)) hlink

theorem linkFieldsGo_prefix
    (cp : List ConstantInfo) :
    ∀ (raws : List FieldInfoM) (fs : List FieldC)
      (os : List ((String × String) × Nat)) (fl : List FieldC)
      (ol : List ((String × String) × Nat)),
      linkFieldsGo cp raws fs os = .ok (fl, ol) →
      ∃ own, fl = fs ++ own := by
  intro raws
  induction raws with
  | nil =>
    intro fs os fl ol hlink
    simp only [linkFieldsGo] at hlink
    cases hlink
    exact ⟨[], by simp⟩
  | cons f rest ih =>
    intro fs os fl ol hlink
    simp only [linkFieldsGo] at hlink
    by_cases hst : hasFlag f.accessFlags FieldAccessFlags.STATIC = true
    · rw [if_pos hst] at hlink
      exact ih fs os fl ol hlink
    · rw [if_neg hst] at hlink
      cases hn : cpUtf8Unwrap cp f.nameIndex with
      | error e => rw [hn] at hlink; exact absurd hlink (by simp [except_error_bind])
      | ok n =>
        rw [hn, except_ok_bind] at hlink
        cases hd : cpUtf8Unwrap cp f.descriptorIndex with
        | error e => rw [hd] at hlink; exact absurd hlink (by simp [except_error_bind])
        | ok d =>
          rw [hd, except_ok_bind] at hlink
          cases hp : parseFieldDescriptor d with
          | error e => rw [hp] at hlink; exact absurd hlink (by simp [except_error_bind])
          | ok fd =>
            rw [hp, except_ok_bind] at hlink
            obtain ⟨own, hown⟩ := ih _ _ fl ol hlink
            exact ⟨⟨n, fd.fieldType, f.accessFlags⟩ :: own, by simp [hown]⟩

/-- C6: linking a class S over a super class C keeps every ordinal of a
field inherited from C (and not redeclared by S) unchanged, puts the
inherited field list strictly before S's own declared fields, and assigns
each newly declared non-static field the ordinal equal to the ordinal-map
size at the moment of its insertion. -/
theorem inherited_field_ordinals_stable
    (cp : List ConstantInfo) (superFields fl : List FieldC)
    (superOrdinals ol : List ((String × String) × Nat)) (raws : List FieldInfoM)
    (hlink : linkInstanceFields cp superFields superOrdinals raws = .ok (fl, ol)) :
    (∀ k v, alFind superOrdinals k = some v →
      (∀ f ∈ raws, hasFlag f.accessFlags FieldAccessFlags.STATIC = false →
        ∀ n d, cpUtf8Unwrap cp f.nameIndex = .ok n →
          cpUtf8Unwrap cp f.descriptorIndex = .ok d → (n, d) ≠ k) →
      alFind ol k = some v) ∧
    (∃ own, fl = superFields ++ own) ∧
    (∀ (f : FieldInfoM) (rest : List FieldInfoM) (fs : List FieldC)
        (os : List ((String × String) × Nat)) (n d : String) (fd : FieldDescM),
      hasFlag f.accessFlags FieldAccessFlags.STATIC = false →
      cpUtf8Unwrap cp f.nameIndex = .ok n →
      cpUtf8Unwrap cp f.descriptorIndex = .ok d →
      parseFieldDescriptor d = .ok fd →
      linkFieldsGo cp (f :: rest) fs os =
        linkFieldsGo cp rest (fs ++ [⟨n, fd.fieldType, f.accessFlags⟩])
          (alInsert os (n, d) os.length) ∧
      alFind (alInsert os (n, d) os.length) (n, d) = some os.length) := by
  refine ⟨?_, ?_, ?_⟩
  · intro k v hsv hnd
    exact linkFieldsGo_stable cp k v raws superFields superOrdinals fl ol hsv hnd hlink
  · exact linkFieldsGo_prefix cp raws superFields superOrdinals fl ol hlink
  · intro f rest fs os n d fd hst hn hd hp
    constructor
    · simp only [linkFieldsGo, hst, if_false, Bool.false_eq_true, hn, hd, hp,
        except_ok_bind]
    · exact alFind_alInsert_self os (n, d) os.length

theorem inherited_field_ordinals_stable_witness :
    linkInstanceFields c6Pool [⟨"x", .base .int, 0⟩] [(("x", "I"), 0)] [⟨0, 3, 2⟩] =
        .ok ([⟨"x", .base .int, 0⟩, ⟨"y", .base .int, 0⟩],
          [(("x", "I"), 0), (("y", "I"), 1)]) ∧
      alFind [(("x", "I"), 0), (("y", "I"), 1)] ("x", "I") = some 0 ∧
      (∃ own, [(⟨"x", .base .int, 0⟩ : FieldC), ⟨"y", .base .int, 0⟩] =
        [⟨"x", .base .int, 0⟩] ++ own) := by
  have H := inherited_field_ordinals_stable c6Pool [⟨"x", .base .int, 0⟩]
    [⟨"x", .base .int, 0⟩, ⟨"y", .base .int, 0⟩] [(("x", "I"), 0)]
    [(("x", "I"), 0), (("y", "I"), 1)] [⟨0, 3, 2⟩] rfl
  refine ⟨rfl, ?_, H.2.1⟩
  refine H.1 ("x", "I") 0 rfl ?_
  intro f hf _ n d hn hd
  have hfe : f = ⟨0, 3, 2⟩ := by simpa using hf
  subst hfe
  have hne : n = "y" := by
    have : (Except.ok "y" : Except Err String) = .ok n := by rw [← hn]; rfl
    cases this; rfl
  have hde : d = "I" := by
    have : (Except.ok "I" : Except Err String) = .ok d := by rw [← hd]; rfl
    cases this; rfl
  subst hne; subst hde
  decide

/-- C9 (spec-modelled): a second load_class call with a name that has
already been loaded returns the cached linked class and leaves the VM state
(class registry and parse count) unchanged: the class file is not re-read
or re-parsed. -/
theorem load_class_returns_cached
    (parseLink : String → Except Err ClassC) (st st' : VmState)
    (name : String) (c : ClassC)
    (h : vmLoadClass parseLink st name = .ok (c, st')) :
    vmLoadClass parseLink st' name = .ok (c, st') := by
  unfold vmLoadClass at h ⊢
  cases hf : alFind st.classes name with
  | some c0 =>
    rw [hf] at h
    cases h
    rw [hf]
  | none =>
    rw [hf] at h
    cases hp : parseLink name with
    | error e => rw [hp] at h; exact absurd h (by simp [except_error_bind])
    | ok c1 =>
      rw [hp, except_ok_bind] at h
      cases h
      simp [alFind_alInsert_self]

theorem load_class_returns_cached_witness :
    vmLoadClass c9PL ⟨[], 0⟩ "C" = .ok (c9Class, ⟨[("C", c9Class)], 1⟩) ∧
      vmLoadClass c9PL ⟨[("C", c9Class)], 1⟩ "C" =
        .ok (c9Class, ⟨[("C", c9Class)], 1⟩) :=
  ⟨rfl, load_class_returns_cached c9PL ⟨[], 0⟩ ⟨[("C", c9Class)], 1⟩ "C" c9Class rfl⟩

end RustyJava
